import Mathlib

/-!
ADF4351 signal generator: register planning and serial programming.

A shallow embedding of `adf4351.c`, `adf4351.h` and `SoftwareSPI.c`.

Modelling conventions.

* A shadow register is its 32-bit word (the `w` member of the union), held as a `Nat`.
  The bit-fields of the `b` member are read and written through `BitField.get` and
  `BitField.set`; fields are allocated in declaration order starting at bit 0, the layout
  avr-gcc uses for these unions.
* A C `double` is an exact rational (`ℚ`): every arithmetic operation is carried out
  without rounding error.  A division by zero does not produce a rational; in the C code it
  produces an infinity or a NaN.
* Converting a `double` to `uint16_t` truncates toward zero and is undefined when the
  truncated value is outside `0 .. 65535` (or the operand is not finite); an integer division
  by zero is undefined as well.  A call whose behaviour is undefined is `none`.
* `int` is 16 bits wide (`INT_BITS`), as avr-gcc makes it on the ATmega8A the driver is
  written for.  Converting a `uint32_t` that does not fit to `int` reduces it modulo
  `2 ^ 16` into the range of `int`.  `gcd_iter` and `ADF4351_UpdateFrequencyRegisters_int`
  take the width of `int` as a parameter, so the result for another width can be read off.
* The I/O port `PORTB` is an 8-bit value; every store to it is recorded, in order, in a
  trace, together with the busy-wait delays.
-/

namespace ADF4351

/-! ## Bit-fields of the register unions (`adf4351.h`) -/

/-- A bit-field of a 32-bit word: its lowest bit and its width. -/
structure BitField where
  lo : Nat
  width : Nat
deriving DecidableEq, Repr

namespace BitField

/-- The bit-field declared right after `f`, `w` bits wide. -/
def next (f : BitField) (w : Nat) : BitField := ⟨f.lo + f.width, w⟩

/-- Read a bit-field of the word `w`. -/
def get (f : BitField) (w : Nat) : Nat := (w / 2 ^ f.lo) % 2 ^ f.width

/-- Assign `v` to a bit-field of the word `w`: the value is reduced to the width of the
field, the other bits of the word are kept. -/
def set (f : BitField) (w v : Nat) : Nat :=
  w % 2 ^ f.lo + (v % 2 ^ f.width) * 2 ^ f.lo
    + (w / 2 ^ (f.lo + f.width)) * 2 ^ (f.lo + f.width)

end BitField

/-! Fields of `ADF4351_Reg0_t`, in declaration order. -/

namespace Reg0
def ControlBits : BitField := ⟨0, 3⟩
def FracVal : BitField := ControlBits.next 12
def IntVal : BitField := FracVal.next 16
def _reserved_0 : BitField := IntVal.next 1
end Reg0

/-! Fields of `ADF4351_Reg1_t`, in declaration order. -/

namespace Reg1
def ControlBits : BitField := ⟨0, 3⟩
def ModVal : BitField := ControlBits.next 12
def PhaseVal : BitField := ModVal.next 12
def Prescaler : BitField := PhaseVal.next 1
def PhaseAdjust : BitField := Prescaler.next 1
def _reserved_0 : BitField := PhaseAdjust.next 3
end Reg1

/-! Fields of `ADF4351_Reg2_t`, in declaration order. -/

namespace Reg2
def ControlBits : BitField := ⟨0, 3⟩
def CounterReset : BitField := ControlBits.next 1
def CPTristate : BitField := CounterReset.next 1
def PowerDown : BitField := CPTristate.next 1
def PhasePolarity : BitField := PowerDown.next 1
def LDP : BitField := PhasePolarity.next 1
def LDF : BitField := LDP.next 1
def CPCurrent : BitField := LDF.next 4
def DoubleBuffer : BitField := CPCurrent.next 1
def RCountVal : BitField := DoubleBuffer.next 10
def RDiv2 : BitField := RCountVal.next 1
def RMul2 : BitField := RDiv2.next 1
def MuxOut : BitField := RMul2.next 3
def LowNoiseSpur : BitField := MuxOut.next 2
def _reserved_0 : BitField := LowNoiseSpur.next 1
end Reg2

/-! Fields of `ADF4351_Reg3_t`, in declaration order. -/

namespace Reg3
def ControlBits : BitField := ⟨0, 3⟩
def ClkDivVal : BitField := ControlBits.next 12
def ClkDivMod : BitField := ClkDivVal.next 2
def _reserved_0 : BitField := ClkDivMod.next 1
def CsrEn : BitField := _reserved_0.next 1
def _reserved_1 : BitField := CsrEn.next 2
def ChargeCh : BitField := _reserved_1.next 1
def AntibacklashW : BitField := ChargeCh.next 1
def BandSelMode : BitField := AntibacklashW.next 1
def _reserved_2 : BitField := BandSelMode.next 8
end Reg3

/-! Fields of `ADF4351_Reg4_t`, in declaration order. -/

namespace Reg4
def ControlBits : BitField := ⟨0, 3⟩
def OutPower : BitField := ControlBits.next 2
def OutEnable : BitField := OutPower.next 1
def AuxPower : BitField := OutEnable.next 2
def AuxEnable : BitField := AuxPower.next 1
def AuxSel : BitField := AuxEnable.next 1
def Mtld : BitField := AuxSel.next 1
def VcoPowerDown : BitField := Mtld.next 1
def BandClkDiv : BitField := VcoPowerDown.next 8
def RfDivSel : BitField := BandClkDiv.next 3
def Feedback : BitField := RfDivSel.next 1
def _reserved_0 : BitField := Feedback.next 8
end Reg4

/-! Fields of `ADF4351_Reg5_t`, in declaration order. -/

namespace Reg5
def ControlBits : BitField := ⟨0, 3⟩
def _reserved_0 : BitField := ControlBits.next 16
def _reserved_1 : BitField := _reserved_0.next 2
def _reserved_2 : BitField := _reserved_1.next 1
def LdPinMode : BitField := _reserved_2.next 2
def _reserved_3 : BitField := LdPinMode.next 8
end Reg5

/-- Output divider enumeration `ADF4351_RFDIV_t`. -/
inductive ADF4351_RFDIV_t where
  | ADF4351_RFDIV_1
  | ADF4351_RFDIV_2
  | ADF4351_RFDIV_4
  | ADF4351_RFDIV_8
  | ADF4351_RFDIV_16
  | ADF4351_RFDIV_32
  | ADF4351_RFDIV_64
deriving DecidableEq, Repr

/-- The integer value of an enumerator of `ADF4351_RFDIV_t`. -/
def ADF4351_RFDIV_t.val : ADF4351_RFDIV_t → Nat
  | ADF4351_RFDIV_1 => 0
  | ADF4351_RFDIV_2 => 1
  | ADF4351_RFDIV_4 => 2
  | ADF4351_RFDIV_8 => 3
  | ADF4351_RFDIV_16 => 4
  | ADF4351_RFDIV_32 => 5
  | ADF4351_RFDIV_64 => 6

/-- Error codes `ADF4351_ERR_t`. -/
inductive ADF4351_ERR_t where
  | ADF4351_Err_None
  | ADF4351_Err_PFD
  | ADF4351_Err_BandSelFreqTooHigh
  | ADF4351_Err_RFoutTooHigh
  | ADF4351_Err_RFoutTooLow
  | ADF4351_Err_REFinTooHigh
  | ADF4351_Err_InvalidN
  | ADF4351_Err_InvalidMOD
  | ADF4351_Warn_NotTuned
deriving DecidableEq, Repr

/-- The six global shadow registers, each as its 32-bit word. -/
structure RegisterBank where
  ADF4351_Reg0 : Nat
  ADF4351_Reg1 : Nat
  ADF4351_Reg2 : Nat
  ADF4351_Reg3 : Nat
  ADF4351_Reg4 : Nat
  ADF4351_Reg5 : Nat
deriving DecidableEq, Repr

def R0_TEST : Nat := 0x00418008
def R1_TEST : Nat := 0x08008029
def R2_TEST : Nat := 0x00004E42
def R3_TEST : Nat := 0x000004B3
def R4_TEST : Nat := 0x00BC803C
def R5_TEST : Nat := 0x00580005

/-- The register bank as `ADF4351_Init` leaves it, whatever it held before. -/
def ADF4351_Init (_regs : RegisterBank) : RegisterBank :=
  { ADF4351_Reg0 := R0_TEST
    ADF4351_Reg1 := R1_TEST
    ADF4351_Reg2 := R2_TEST
    ADF4351_Reg3 := R3_TEST
    ADF4351_Reg4 := R4_TEST
    ADF4351_Reg5 := R5_TEST }

/-! ## Frequency planning (`adf4351.c`) -/

/-- Output divider selection `ADF4351_Select_Output_Divider`. -/
def ADF4351_Select_Output_Divider (RFoutFrequency : ℚ) : ADF4351_RFDIV_t :=
  if RFoutFrequency ≥ 2200000000 then .ADF4351_RFDIV_1
  else if RFoutFrequency ≥ 1100000000 then .ADF4351_RFDIV_2
  else if RFoutFrequency ≥ 550000000 then .ADF4351_RFDIV_4
  else if RFoutFrequency ≥ 275000000 then .ADF4351_RFDIV_8
  else if RFoutFrequency ≥ 137500000 then .ADF4351_RFDIV_16
  else if RFoutFrequency ≥ 68750000 then .ADF4351_RFDIV_32
  else .ADF4351_RFDIV_64

/-- The loop of `gcd_iter`, run for at most `fuel` tests of the loop condition. -/
def gcd_iter_loop : Nat → Nat → Nat → Nat
  | 0, u, _ => u
  | fuel + 1, u, v => if v = 0 then u else gcd_iter_loop fuel v (u % v)

/-- The conversion of a `uint32_t` value to an `int` of `intBits` bits: the value itself
when it fits, else the value reduced modulo `2 ^ intBits` into the range of `int`. -/
def toInt (intBits u : Nat) : Int :=
  if u % 2 ^ intBits < 2 ^ (intBits - 1) then ((u % 2 ^ intBits : Nat) : Int)
  else ((u % 2 ^ intBits : Nat) : Int) - 2 ^ intBits

/-- The conversion of an `int` to `uint32_t`: reduction modulo `2 ^ 32`. -/
def toU32 (i : Int) : Nat := (i % 2 ^ 32).toNat

/-- The helper `gcd_iter` on a C implementation whose `int` has `intBits` bits.  The
arguments are `uint32_t`; `v` strictly decreases, so `v + 1` tests of the loop condition
are enough (`gcd_iter_loop_fuel`); the `uint32_t` result is returned as an `int`. -/
def gcd_iter (intBits u v : Nat) : Int :=
  toInt intBits (gcd_iter_loop (v % 2 ^ 32 + 1) (u % 2 ^ 32) (v % 2 ^ 32))

/-- Width of `int` in bits on the target, an ATmega8A compiled with avr-gcc. -/
def INT_BITS : Nat := 16

/-- Division of doubles: no rational value when the divisor is zero. -/
def fdiv (a b : ℚ) : Option ℚ := if b = 0 then none else some (a / b)

/-- The C library function `round`: nearest integer, halfway cases away from zero. -/
def c_round (x : ℚ) : ℚ := if 0 ≤ x then (⌊x + 1 / 2⌋ : ℤ) else (-⌊-x + 1 / 2⌋ : ℤ)

/-- Truncation toward zero. -/
def c_trunc (x : ℚ) : ℤ := if 0 ≤ x then ⌊x⌋ else -⌊-x⌋

/-- The conversion `(uint16_t)x` of a double: defined when the truncated value is
representable. -/
def toU16 (x : ℚ) : Option Nat :=
  if 0 ≤ c_trunc x ∧ c_trunc x < 65536 then some (c_trunc x).toNat else none

/-- What a call leaves in `*RFoutCalc`. -/
inductive CalcOut where
  | unwritten
  | nonfinite
  | finite (v : ℚ)
deriving DecidableEq

/-- The observable result of `ADF4351_UpdateFrequencyRegisters`. -/
structure Outcome where
  regs : RegisterBank
  err : ADF4351_ERR_t
  RFoutCalc : CalcOut
deriving DecidableEq

/-- The main calculation `ADF4351_UpdateFrequencyRegisters`, on the register bank `regs`,
for a C implementation whose `int` has `intBits` bits.
A zero divisor in steps 1 to 4 makes the operand of one of the conversions to `uint16_t`
infinite or NaN, so such a call has no defined behaviour.  The quotient `FRAC / MOD` of the
last statement is only stored: with `MOD = 0` the call still returns. -/
def ADF4351_UpdateFrequencyRegisters_int (intBits : Nat) (regs : RegisterBank)
    (RFout REFin OutputChannelSpacing : ℚ) (gcd : Int) (_AutoBandSelectClock : Int) :
    Option Outcome :=
  -- force constants
  let r1 := Reg1.Prescaler.set regs.ADF4351_Reg1 1
  let r1 := Reg1.PhaseVal.set r1 1
  let r4 := Reg4.Feedback.set regs.ADF4351_Reg4 1
  -- 1. reference set-up
  let RefD2 : Nat := Reg2.RDiv2.get regs.ADF4351_Reg2 + 1
  let RefDoubler : Nat := Reg2.RMul2.get regs.ADF4351_Reg2 + 1
  let Rcounter : Nat := Reg2.RCountVal.get regs.ADF4351_Reg2
  (fdiv (REFin * RefDoubler / RefD2) Rcounter).bind fun PFDFreq =>
  -- 2. output divider
  let RfDivEnum := ADF4351_Select_Output_Divider RFout
  let r4 := Reg4.RfDivSel.set r4 RfDivEnum.val
  let OutputDivider : Nat := (1 <<< RfDivEnum.val) % 65536
  -- 3. N
  (fdiv (RFout * OutputDivider) PFDFreq).bind fun N =>
  -- 4. INT, MOD, FRAC
  (toU16 N).bind fun INT =>
  (fdiv PFDFreq OutputChannelSpacing).bind fun ratio =>
  (toU16 (c_round ratio)).bind fun MOD =>
  (toU16 (c_round ((N - INT) * MOD))).bind fun FRAC =>
  -- 5. gcd optimisation
  (if gcd ≠ 0 then
      let D : Nat := toU32 (gcd_iter intBits MOD FRAC)
      if D = 0 then none else some ((MOD / D) % 65536, (FRAC / D) % 65536)
    else some (MOD, FRAC)).bind fun (MOD, FRAC) =>
  let MOD := if MOD = 1 then 2 else MOD
  -- safety check
  if MOD > 4095 then
    some { regs := { regs with ADF4351_Reg1 := r1, ADF4351_Reg4 := r4 }
           err := .ADF4351_Err_InvalidMOD
           RFoutCalc := .unwritten }
  else
    -- save calculated values
    let r0 := Reg0.FracVal.set regs.ADF4351_Reg0 (FRAC &&& 0x0FFF)
    let r0 := Reg0.IntVal.set r0 (INT &&& 0xFFFF)
    let r1 := Reg1.ModVal.set r1 (MOD &&& 0x0FFF)
    some { regs := { regs with ADF4351_Reg0 := r0, ADF4351_Reg1 := r1, ADF4351_Reg4 := r4 }
           err := .ADF4351_Err_None
           RFoutCalc :=
             if MOD = 0 then .nonfinite
             else .finite (((INT : ℚ) + (FRAC : ℚ) / (MOD : ℚ)) * PFDFreq / OutputDivider) }

/-- The main calculation `ADF4351_UpdateFrequencyRegisters` on the target, where `int` has
`INT_BITS` bits. -/
def ADF4351_UpdateFrequencyRegisters (regs : RegisterBank) (RFout REFin OutputChannelSpacing : ℚ)
    (gcd : Int) (AutoBandSelectClock : Int) : Option Outcome :=
  ADF4351_UpdateFrequencyRegisters_int INT_BITS regs RFout REFin OutputChannelSpacing gcd
    AutoBandSelectClock

/-! ## Bit-banged serial transport (`SoftwareSPI.c`) -/

/-! Port B pin numbers, as `<avr/io.h>` of avr-libc defines them. -/

def PB0 : Nat := 0
def PB1 : Nat := 1
def PB2 : Nat := 2

def ADF_PIN_LE : Nat := PB0
def ADF_PIN_DATA : Nat := PB1
def ADF_PIN_CLK : Nat := PB2

def SOFT_SPI_CS_PIN : Nat := ADF_PIN_LE
def SOFT_SPI_MOSI_PIN : Nat := ADF_PIN_DATA
def SOFT_SPI_SCK_PIN : Nat := ADF_PIN_CLK

/-- What the program does to the outside world, in program order. -/
inductive Event where
  | portb (v : Nat)
  | ddrb (v : Nat)
  | delay_us (n : Nat)
deriving DecidableEq, Repr

/-- The I/O registers of port B and the record of every store and delay so far. -/
structure Bus where
  PORTB : Nat
  DDRB : Nat
  trace : List Event
deriving DecidableEq, Repr

namespace Bus

/-- The store `PORTB = v` to the 8-bit port register. -/
def setPORTB (s : Bus) (v : Nat) : Bus :=
  { s with PORTB := v % 256, trace := s.trace ++ [Event.portb (v % 256)] }

/-- The store `DDRB = v` to the 8-bit direction register. -/
def setDDRB (s : Bus) (v : Nat) : Bus :=
  { s with DDRB := v % 256, trace := s.trace ++ [Event.ddrb (v % 256)] }

/-- The busy wait `_delay_us(n)`. -/
def delay_us (s : Bus) (n : Nat) : Bus :=
  { s with trace := s.trace ++ [Event.delay_us n] }

end Bus

/-- The operand `~mask` of `PORTB &= ~mask`, within the eight bits of the port. -/
def notMask (mask : Nat) : Nat := 0xFF ^^^ mask

/-- The initialisation `soft_spi_init`. -/
def soft_spi_init (s : Bus) : Bus :=
  let s := s.setDDRB (s.DDRB |||
    ((1 <<< SOFT_SPI_MOSI_PIN) ||| (1 <<< SOFT_SPI_SCK_PIN) ||| (1 <<< SOFT_SPI_CS_PIN)))
  let s := s.setPORTB (s.PORTB ||| (1 <<< SOFT_SPI_CS_PIN))
  let s := s.setPORTB (s.PORTB &&& notMask (1 <<< SOFT_SPI_SCK_PIN))
  s

/-- Pull LE low: `soft_spi_chip_enable`. -/
def soft_spi_chip_enable (s : Bus) : Bus :=
  s.setPORTB (s.PORTB &&& notMask (1 <<< SOFT_SPI_CS_PIN))

/-- Pull LE high: `soft_spi_chip_disable`. -/
def soft_spi_chip_disable (s : Bus) : Bus :=
  s.setPORTB (s.PORTB ||| (1 <<< SOFT_SPI_CS_PIN))

/-- One pass through the body of the loop of `soft_spi_transfer`, up to the shift of
`data`. -/
def soft_spi_transfer_bit (data : Nat) (s : Bus) : Bus :=
  -- 1. set MOSI
  let s := if data &&& 0x80 ≠ 0 then s.setPORTB (s.PORTB ||| (1 <<< SOFT_SPI_MOSI_PIN))
    else s.setPORTB (s.PORTB &&& notMask (1 <<< SOFT_SPI_MOSI_PIN))
  -- 2. pulse SCK
  let s := s.delay_us 2
  let s := s.setPORTB (s.PORTB ||| (1 <<< SOFT_SPI_SCK_PIN))
  let s := s.delay_us 2
  let s := s.setPORTB (s.PORTB &&& notMask (1 <<< SOFT_SPI_SCK_PIN))
  s

/-- The loop of `soft_spi_transfer` with `n` passes left; `data` is a `uint8_t`. -/
def soft_spi_transfer_loop : Nat → Nat → Bus → Bus
  | 0, _, s => s
  | n + 1, data, s =>
    soft_spi_transfer_loop n ((data <<< 1) % 256) (soft_spi_transfer_bit data s)

/-- Bit-bang eight bits, most significant first: `soft_spi_transfer`. -/
def soft_spi_transfer (data : Nat) (s : Bus) : Bus :=
  soft_spi_transfer_loop 8 (data % 256) s

/-- Write one 32-bit word: `ADF4351_WriteRegister32`. -/
def ADF4351_WriteRegister32 (value : Nat) (s : Bus) : Bus :=
  let s := soft_spi_chip_enable s
  let s := soft_spi_transfer ((value >>> 24) &&& 0xFF) s
  let s := soft_spi_transfer ((value >>> 16) &&& 0xFF) s
  let s := soft_spi_transfer ((value >>> 8) &&& 0xFF) s
  let s := soft_spi_transfer (value &&& 0xFF) s
  let s := soft_spi_chip_disable s
  s

/-- Write all six shadow registers: `ADF4351_UpdateAllRegisters`. -/
def ADF4351_UpdateAllRegisters (regs : RegisterBank) (s : Bus) : Bus :=
  let s := ADF4351_WriteRegister32 regs.ADF4351_Reg5 s
  let s := ADF4351_WriteRegister32 regs.ADF4351_Reg4 s
  let s := ADF4351_WriteRegister32 regs.ADF4351_Reg3 s
  let s := ADF4351_WriteRegister32 regs.ADF4351_Reg2 s
  let s := ADF4351_WriteRegister32 regs.ADF4351_Reg1 s
  let s := ADF4351_WriteRegister32 regs.ADF4351_Reg0 s
  s

/-! ## Quantities of the specification -/

/-- Phase-detector frequency:
`PFD = REFin * (RMul2 + 1) / (RDiv2 + 1) / RCountVal`, read off register 2. -/
def PFD (regs : RegisterBank) (REFin : ℚ) : ℚ :=
  REFin * ((Reg2.RMul2.get regs.ADF4351_Reg2 : ℚ) + 1)
    / ((Reg2.RDiv2.get regs.ADF4351_Reg2 : ℚ) + 1)
    / (Reg2.RCountVal.get regs.ADF4351_Reg2 : ℚ)

/-- The output divider as the step function of the target frequency, inclusive lower
band edges. -/
def stepDivider (RFout : ℚ) : Nat :=
  if 2200000000 ≤ RFout then 1
  else if 1100000000 ≤ RFout then 2
  else if 550000000 ≤ RFout then 4
  else if 275000000 ≤ RFout then 8
  else if 137500000 ≤ RFout then 16
  else if 68750000 ≤ RFout then 32
  else 64

/-- The divide ratio `N = RFout * divider / PFD`. -/
def Nratio (regs : RegisterBank) (RFout REFin : ℚ) : ℚ :=
  RFout * (stepDivider RFout : ℚ) / PFD regs REFin

/-- The golden register bank loaded at start-up. -/
def golden : RegisterBank := ADF4351_Init ⟨0, 0, 0, 0, 0, 0⟩

/-- Step 4 of the planner: `INT`, the integer part of `N`. -/
def specINT (regs : RegisterBank) (RFout REFin : ℚ) : Nat :=
  ⌊Nratio regs RFout REFin⌋.toNat

/-- Step 5 of the planner: `MOD = round(PFD / channelSpacing)`. -/
def specMOD (regs : RegisterBank) (REFin sp : ℚ) : Nat :=
  (round (PFD regs REFin / sp)).toNat

/-- Step 6 of the planner: `FRAC = round((N - INT) * MOD)`. -/
def specFRAC (regs : RegisterBank) (RFout REFin sp : ℚ) : Nat :=
  (round ((Nratio regs RFout REFin - specINT regs RFout REFin) * specMOD regs REFin sp)).toNat

/-- Step 7 of the planner: `MOD` after the optional reduction by `gcd(MOD, FRAC)`. -/
def reducedMOD (regs : RegisterBank) (RFout REFin sp : ℚ) (gcd : Int) : Nat :=
  if gcd ≠ 0 then
    specMOD regs REFin sp / Nat.gcd (specMOD regs REFin sp) (specFRAC regs RFout REFin sp)
  else specMOD regs REFin sp

/-- Step 7 of the planner: `FRAC` after the optional reduction by `gcd(MOD, FRAC)`. -/
def reducedFRAC (regs : RegisterBank) (RFout REFin sp : ℚ) (gcd : Int) : Nat :=
  if gcd ≠ 0 then
    specFRAC regs RFout REFin sp / Nat.gcd (specMOD regs REFin sp) (specFRAC regs RFout REFin sp)
  else specFRAC regs RFout REFin sp

/-- Step 8 of the planner: `MOD` after the reduction and the promotion of 1 to 2. -/
def finalMOD (regs : RegisterBank) (RFout REFin sp : ℚ) (gcd : Int) : Nat :=
  if reducedMOD regs RFout REFin sp gcd = 1 then 2 else reducedMOD regs RFout REFin sp gcd

/-! ## The three-wire link as the device sees it -/

/-- Level of the latch-enable line on a port value. -/
def lineLE (p : Nat) : Bool := p.testBit ADF_PIN_LE

/-- Level of the data line on a port value. -/
def lineDATA (p : Nat) : Bool := p.testBit ADF_PIN_DATA

/-- Level of the clock line on a port value. -/
def lineCLK (p : Nat) : Bool := p.testBit ADF_PIN_CLK

/-- An observer of the three lines. -/
structure Monitor where
  /-- Value of the port before the next event. -/
  port : Nat
  /-- Number of rising clock edges seen. -/
  edges : Nat
  /-- Level of the data line at each rising clock edge, oldest first. -/
  sampled : List Bool
  /-- No change of the data line was seen with the clock high before or after it. -/
  dataSafe : Bool
  /-- Bits clocked in since the last edge of LE. -/
  shift : List Bool
  /-- The bits latched at each rising edge of LE, oldest first. -/
  frames : List (List Bool)
  /-- Rising clock edges seen while LE was high. -/
  stray : Nat
  /-- Falling edges of LE seen. -/
  leFalls : Nat
  /-- Rising edges of LE seen. -/
  leRises : Nat
deriving DecidableEq, Repr

/-- The observer before any event, on a port that holds `p`. -/
def Monitor.init (p : Nat) : Monitor :=
  { port := p, edges := 0, sampled := [], dataSafe := true, shift := [], frames := [],
    stray := 0, leFalls := 0, leRises := 0 }

/-- The observer after one more event. -/
def Monitor.step (m : Monitor) : Event → Monitor
  | .portb q =>
    let rise := !lineCLK m.port && lineCLK q
    let leFall := lineLE m.port && !lineLE q
    let leRise := !lineLE m.port && lineLE q
    { port := q
      edges := if rise then m.edges + 1 else m.edges
      sampled := if rise then m.sampled ++ [lineDATA q] else m.sampled
      dataSafe := m.dataSafe &&
        !((lineDATA m.port != lineDATA q) && (lineCLK m.port || lineCLK q))
      shift := if leFall || leRise then [] else if rise then m.shift ++ [lineDATA q]
        else m.shift
      frames := if leRise then m.frames ++ [m.shift] else m.frames
      stray := if rise && lineLE q then m.stray + 1 else m.stray
      leFalls := if leFall then m.leFalls + 1 else m.leFalls
      leRises := if leRise then m.leRises + 1 else m.leRises }
  | .ddrb _ => m
  | .delay_us _ => m

/-- The observer after a sequence of events. -/
def observe (m : Monitor) (tr : List Event) : Monitor := tr.foldl Monitor.step m

/-- The bits `n-1` down to `0` of `w`, most significant first. -/
def bitsMSB (n w : Nat) : List Bool := (List.range n).map fun k => w.testBit (n - 1 - k)

/-- The number a list of bits spells, most significant bit first. -/
def bitsToNat (bits : List Bool) : Nat := bits.foldl (fun acc b => 2 * acc + b.toNat) 0

/-- Split a frame into bytes of eight bits, first bit most significant. -/
def bytesOf : List Bool → List Nat
  | b7 :: b6 :: b5 :: b4 :: b3 :: b2 :: b1 :: b0 :: rest =>
    bitsToNat [b7, b6, b5, b4, b3, b2, b1, b0] :: bytesOf rest
  | _ => []

/-- The four bytes of a 32-bit word, most significant first. -/
def wordBytes (w : Nat) : List Nat :=
  [w / 2 ^ 24 % 256, w / 2 ^ 16 % 256, w / 2 ^ 8 % 256, w % 256]

/-- A bus at rest on a port that holds `p`, with an empty record. -/
def Bus.fresh (p d : Nat) : Bus := { PORTB := p, DDRB := d, trace := [] }

/-- The observer `m'` is the observer `m` after `bits` were clocked out, the clock low at
the end and LE left alone. -/
def Monitor.Clocked (bits : List Bool) (m m' : Monitor) : Prop :=
  lineCLK m'.port = false ∧ lineLE m'.port = lineLE m.port ∧
  m'.edges = m.edges + bits.length ∧ m'.sampled = m.sampled ++ bits ∧
  m'.dataSafe = m.dataSafe ∧ m'.shift = m.shift ++ bits ∧ m'.frames = m.frames ∧
  m'.stray = (if lineLE m.port then m.stray + bits.length else m.stray) ∧
  m'.leFalls = m.leFalls ∧ m'.leRises = m.leRises

/-- The bits a `uint8_t` presents in bit 7 over `n` passes of the transfer loop. -/
def shiftedBits : Nat → Nat → List Bool
  | 0, _ => []
  | n + 1, data => data.testBit 7 :: shiftedBits n ((data <<< 1) % 256)

/-- The observer `m'` is the observer `m` after one complete frame carrying `bits`: LE
driven low, the bits clocked out, LE driven high. -/
def Monitor.Framed (bits : List Bool) (m m' : Monitor) : Prop :=
  lineCLK m'.port = false ∧ lineLE m'.port = true ∧
  m'.edges = m.edges + bits.length ∧ m'.sampled = m.sampled ++ bits ∧
  m'.dataSafe = m.dataSafe ∧ m'.shift = [] ∧ m'.frames = m.frames ++ [bits] ∧
  m'.stray = m.stray ∧ m'.leFalls = m.leFalls + 1 ∧ m'.leRises = m.leRises + 1

/-- What the observer has seen after one call of `ADF4351_WriteRegister32` on a bus at rest. -/
def observedWrite (w p d : Nat) : Monitor :=
  observe (Monitor.init p) (ADF4351_WriteRegister32 w (Bus.fresh p d)).trace

/-- What the observer has seen after one call of `ADF4351_UpdateAllRegisters` on a bus at
rest. -/
def observedUpdate (regs : RegisterBank) (p d : Nat) : Monitor :=
  observe (Monitor.init p) (ADF4351_UpdateAllRegisters regs (Bus.fresh p d)).trace

/-! ## The register words as the unions pack them -/

/-- The word of a union, all bits zero at first, after its bit-fields were assigned the given
values one after the other. -/
def assignAll (fields : List (BitField × Nat)) : Nat :=
  fields.foldl (fun w fv => fv.1.set w fv.2) 0

/-- The word of an `ADF4351_Reg0_t` with these members. -/
def Reg0.word (ControlBits FracVal IntVal r0 : Nat) : Nat :=
  assignAll [(Reg0.ControlBits, ControlBits), (Reg0.FracVal, FracVal), (Reg0.IntVal, IntVal),
    (Reg0._reserved_0, r0)]

/-- The word of an `ADF4351_Reg1_t` with these members. -/
def Reg1.word (ControlBits ModVal PhaseVal Prescaler PhaseAdjust r0 : Nat) : Nat :=
  assignAll [(Reg1.ControlBits, ControlBits), (Reg1.ModVal, ModVal), (Reg1.PhaseVal, PhaseVal),
    (Reg1.Prescaler, Prescaler), (Reg1.PhaseAdjust, PhaseAdjust), (Reg1._reserved_0, r0)]

/-- The word of an `ADF4351_Reg2_t` with these members. -/
def Reg2.word (ControlBits CounterReset CPTristate PowerDown PhasePolarity LDP LDF CPCurrent
    DoubleBuffer RCountVal RDiv2 RMul2 MuxOut LowNoiseSpur r0 : Nat) : Nat :=
  assignAll [(Reg2.ControlBits, ControlBits), (Reg2.CounterReset, CounterReset),
    (Reg2.CPTristate, CPTristate), (Reg2.PowerDown, PowerDown),
    (Reg2.PhasePolarity, PhasePolarity), (Reg2.LDP, LDP), (Reg2.LDF, LDF),
    (Reg2.CPCurrent, CPCurrent), (Reg2.DoubleBuffer, DoubleBuffer), (Reg2.RCountVal, RCountVal),
    (Reg2.RDiv2, RDiv2), (Reg2.RMul2, RMul2), (Reg2.MuxOut, MuxOut),
    (Reg2.LowNoiseSpur, LowNoiseSpur), (Reg2._reserved_0, r0)]

/-- The word of an `ADF4351_Reg3_t` with these members. -/
def Reg3.word (ControlBits ClkDivVal ClkDivMod r0 CsrEn r1 ChargeCh AntibacklashW BandSelMode
    r2 : Nat) : Nat :=
  assignAll [(Reg3.ControlBits, ControlBits), (Reg3.ClkDivVal, ClkDivVal),
    (Reg3.ClkDivMod, ClkDivMod), (Reg3._reserved_0, r0), (Reg3.CsrEn, CsrEn),
    (Reg3._reserved_1, r1), (Reg3.ChargeCh, ChargeCh), (Reg3.AntibacklashW, AntibacklashW),
    (Reg3.BandSelMode, BandSelMode), (Reg3._reserved_2, r2)]

/-- The word of an `ADF4351_Reg4_t` with these members. -/
def Reg4.word (ControlBits OutPower OutEnable AuxPower AuxEnable AuxSel Mtld VcoPowerDown
    BandClkDiv RfDivSel Feedback r0 : Nat) : Nat :=
  assignAll [(Reg4.ControlBits, ControlBits), (Reg4.OutPower, OutPower),
    (Reg4.OutEnable, OutEnable), (Reg4.AuxPower, AuxPower), (Reg4.AuxEnable, AuxEnable),
    (Reg4.AuxSel, AuxSel), (Reg4.Mtld, Mtld), (Reg4.VcoPowerDown, VcoPowerDown),
    (Reg4.BandClkDiv, BandClkDiv), (Reg4.RfDivSel, RfDivSel), (Reg4.Feedback, Feedback),
    (Reg4._reserved_0, r0)]

/-- The word of an `ADF4351_Reg5_t` with these members. -/
def Reg5.word (ControlBits r0 r1 r2 LdPinMode r3 : Nat) : Nat :=
  assignAll [(Reg5.ControlBits, ControlBits), (Reg5._reserved_0, r0), (Reg5._reserved_1, r1),
    (Reg5._reserved_2, r2), (Reg5.LdPinMode, LdPinMode), (Reg5._reserved_3, r3)]

/-- The packing the specification describes: fields given as (width, value), each directly
above the one before, the first at bit `lo`. -/
def packContiguous : Nat → List (Nat × Nat) → Nat
  | _, [] => 0
  | lo, (width, v) :: rest => (v % 2 ^ width) * 2 ^ lo + packContiguous (lo + width) rest

/-- The register wire format of the specification: the 3-bit tag in bits 0 to 2 and the
fields, given as (width, value), packed contiguously above it, low to high. -/
def specWord (tag : Nat) (fields : List (Nat × Nat)) : Nat :=
  packContiguous 0 ((3, tag) :: fields)

/-- The bit-fields of the list start at bit `lo` and each starts where the one before it
ends. -/
def contiguousFrom : Nat → List BitField → Bool
  | _, [] => true
  | lo, f :: rest => f.lo == lo && contiguousFrom (lo + f.width) rest

/-! ## Auxiliary facts: the helpers -/

theorem gcd_iter_loop_fuel (fuel u v : Nat) (h : v < fuel) :
    gcd_iter_loop fuel u v = Nat.gcd u v := by
  induction fuel generalizing u v with
  | zero => omega
  | succ n ih =>
    unfold gcd_iter_loop
    split
    · next hv => subst hv; simp
    · next hv =>
      have hlt : u % v < n := by
        have := Nat.mod_lt u (Nat.pos_of_ne_zero hv)
        omega
      rw [ih v (u % v) hlt, Nat.gcd_comm u v, Nat.gcd_rec v u, Nat.gcd_comm]

/-- The helper `gcd_iter` computes the greatest common divisor of its `uint32_t` arguments
and converts it to `int`. -/
theorem gcd_iter_eq (intBits u v : Nat) :
    gcd_iter intBits u v = toInt intBits (Nat.gcd (u % 2 ^ 32) (v % 2 ^ 32)) := by
  unfold gcd_iter
  rw [gcd_iter_loop_fuel _ _ _ (Nat.lt_succ_self _)]

/-- The divisor `D` the planner obtains on the target for 16-bit operands: the greatest
common divisor when it is below `2 ^ 15`; otherwise the `int` is negative and `D` is the
divisor plus `2 ^ 32 - 2 ^ 16`. -/
theorem divisor_eq {m f : Nat} (hm : m < 65536) (hf : f < 65536) :
    toU32 (gcd_iter INT_BITS m f)
      = if Nat.gcd m f < 32768 then Nat.gcd m f else Nat.gcd m f + 4294901760 := by
  have hg : Nat.gcd m f < 65536 := by
    rcases Nat.eq_zero_or_pos m with h0 | hpos
    · subst h0; simpa using hf
    · exact lt_of_le_of_lt (Nat.gcd_le_left f hpos) hm
  rw [gcd_iter_eq, Nat.mod_eq_of_lt (by omega : m < 2 ^ 32),
    Nat.mod_eq_of_lt (by omega : f < 2 ^ 32)]
  generalize Nat.gcd m f = g at hg ⊢
  unfold toU32 toInt INT_BITS
  have e : g % 2 ^ 16 = g := Nat.mod_eq_of_lt (by omega)
  rw [e]
  by_cases hlt : g < 32768
  · rw [if_pos (by omega : g < 2 ^ (16 - 1)), if_pos hlt]
    omega
  · rw [if_neg (by omega : ¬ g < 2 ^ (16 - 1)), if_neg hlt]
    omega

theorem c_trunc_intCast (k : ℤ) : c_trunc (k : ℚ) = k := by
  unfold c_trunc
  split
  · exact Int.floor_intCast k
  · have : (-(k : ℚ)) = ((-k : ℤ) : ℚ) := by push_cast; ring
    rw [this, Int.floor_intCast]; ring

theorem toU16_eq_some {x : ℚ} {n : Nat} (h : toU16 x = some n) :
    (n : ℤ) = c_trunc x ∧ n < 65536 := by
  unfold toU16 at h
  split at h
  · next hc =>
    simp only [Option.some.injEq] at h
    subst h
    refine ⟨Int.toNat_of_nonneg hc.1, ?_⟩
    have := hc.2
    omega
  · simp at h

/-- The cast of a double that is in range truncates toward zero: the fractional part that
is dropped has the sign of the operand. -/
theorem toU16_frac {x : ℚ} {n : Nat} (h : toU16 x = some n) :
    -1 < x - n ∧ x - n < 1 ∧ (0 ≤ x → (n : ℤ) = ⌊x⌋ ∧ 0 ≤ x - n) ∧ (x < 0 → n = 0) := by
  obtain ⟨h1, _⟩ := toU16_eq_some h
  unfold c_trunc at h1
  have hq : ((n : ℤ) : ℚ) = (n : ℚ) := by norm_cast
  split at h1
  · next hx =>
    have hf1 := Int.floor_le x
    have hf2 := Int.lt_floor_add_one x
    rw [← h1, hq] at hf1 hf2
    refine ⟨by linarith, by linarith, fun _ => ⟨h1, by linarith⟩, fun h0 => absurd hx (not_le.mpr h0)⟩
  · next hx =>
    have hx : x < 0 := not_le.mp hx
    have hfl : 0 ≤ ⌊-x⌋ := Int.floor_nonneg.mpr (by linarith)
    have hn : (n : ℤ) = 0 := by omega
    have hn0 : n = 0 := by exact_mod_cast hn
    have hfl0 : ⌊-x⌋ = 0 := by omega
    have hlt := Int.lt_floor_add_one (-x)
    rw [hfl0] at hlt
    subst hn0
    simp only [Int.cast_zero, zero_add] at hlt
    refine ⟨by simp; linarith, by simp; linarith, fun h0 => absurd h0 (not_le.mpr hx), fun _ => rfl⟩

/-- The cast of a rounded double that is in range: the result is the nearest integer. -/
theorem toU16_c_round {x : ℚ} {n : Nat} (h : toU16 (c_round x) = some n) :
    (n : ℤ) = round x ∧ |x - n| ≤ 1 / 2 ∧ n < 65536 := by
  obtain ⟨h1, h2⟩ := toU16_eq_some h
  have key : (n : ℤ) = round x := by
    unfold c_round at h1
    split at h1
    · rw [c_trunc_intCast] at h1
      rw [h1, round_eq]
    · next hx =>
      have hx : x < 0 := not_le.mp hx
      rw [c_trunc_intCast] at h1
      have hfl : 0 ≤ ⌊-x + 1 / 2⌋ := Int.floor_nonneg.mpr (by linarith)
      have hfl0 : ⌊-x + 1 / 2⌋ = 0 := by omega
      have hlt := Int.lt_floor_add_one (-x + 1 / 2)
      rw [hfl0] at hlt
      simp only [Int.cast_zero, zero_add] at hlt
      have : ⌊x + 1 / 2⌋ = 0 := by
        rw [Int.floor_eq_iff]
        constructor
        · simp; linarith
        · simp; linarith
      rw [round_eq, this]; omega
  refine ⟨key, ?_, h2⟩
  have := abs_sub_round x
  rw [← key] at this
  simpa using this

/-! ## Auxiliary facts: the planner -/

theorem outputDivider_eq (RFout : ℚ) :
    (1 <<< (ADF4351_Select_Output_Divider RFout).val) % 65536 = stepDivider RFout := by
  unfold ADF4351_Select_Output_Divider stepDivider
  simp only [ge_iff_le]
  split_ifs <;> rfl

theorem stepDivider_eq_pow (RFout : ℚ) :
    stepDivider RFout = 2 ^ (ADF4351_Select_Output_Divider RFout).val := by
  unfold ADF4351_Select_Output_Divider stepDivider
  simp only [ge_iff_le]
  split_ifs <;> rfl

theorem stepDivider_pos (RFout : ℚ) : 0 < stepDivider RFout := by
  unfold stepDivider
  split_ifs <;> decide

theorem select_val_le (RFout : ℚ) : (ADF4351_Select_Output_Divider RFout).val ≤ 6 := by
  cases h : ADF4351_Select_Output_Divider RFout <;> decide

/-- A call that returns has gone through every step of the function: no divisor was zero,
the three conversions were in range, and the outcome is one of the two return paths. -/
theorem update_cases {regs : RegisterBank} {RFout REFin sp : ℚ} {gcd a : Int} {out : Outcome}
    (h : ADF4351_UpdateFrequencyRegisters regs RFout REFin sp gcd a = some out) :
    ∃ INT MOD0 FRAC0 MOD1 FRAC1 : Nat,
      Reg2.RCountVal.get regs.ADF4351_Reg2 ≠ 0 ∧ PFD regs REFin ≠ 0 ∧ sp ≠ 0 ∧
      toU16 (Nratio regs RFout REFin) = some INT ∧
      toU16 (c_round (PFD regs REFin / sp)) = some MOD0 ∧
      toU16 (c_round ((Nratio regs RFout REFin - INT) * MOD0)) = some FRAC0 ∧
      ((gcd ≠ 0 ∧ toU32 (gcd_iter INT_BITS MOD0 FRAC0) ≠ 0
          ∧ MOD1 = MOD0 / toU32 (gcd_iter INT_BITS MOD0 FRAC0)
          ∧ FRAC1 = FRAC0 / toU32 (gcd_iter INT_BITS MOD0 FRAC0))
        ∨ (gcd = 0 ∧ MOD1 = MOD0 ∧ FRAC1 = FRAC0)) ∧
      out =
        (if (if MOD1 = 1 then 2 else MOD1) > 4095 then
          { regs := { regs with
                ADF4351_Reg1 := Reg1.PhaseVal.set (Reg1.Prescaler.set regs.ADF4351_Reg1 1) 1
                ADF4351_Reg4 := Reg4.RfDivSel.set (Reg4.Feedback.set regs.ADF4351_Reg4 1)
                  (ADF4351_Select_Output_Divider RFout).val }
            err := .ADF4351_Err_InvalidMOD
            RFoutCalc := .unwritten }
        else
          { regs := { regs with
                ADF4351_Reg0 := Reg0.IntVal.set
                  (Reg0.FracVal.set regs.ADF4351_Reg0 (FRAC1 % 4096)) (INT % 65536)
                ADF4351_Reg1 := Reg1.ModVal.set
                  (Reg1.PhaseVal.set (Reg1.Prescaler.set regs.ADF4351_Reg1 1) 1)
                  ((if MOD1 = 1 then 2 else MOD1) % 4096)
                ADF4351_Reg4 := Reg4.RfDivSel.set (Reg4.Feedback.set regs.ADF4351_Reg4 1)
                  (ADF4351_Select_Output_Divider RFout).val }
            err := .ADF4351_Err_None
            RFoutCalc :=
              if (if MOD1 = 1 then 2 else MOD1) = 0 then .nonfinite
              else .finite (((INT : ℚ) + (FRAC1 : ℚ) / ((if MOD1 = 1 then 2 else MOD1 : ℕ) : ℚ))
                * PFD regs REFin / (stepDivider RFout : ℚ)) }) := by
  unfold ADF4351_UpdateFrequencyRegisters ADF4351_UpdateFrequencyRegisters_int at h
  simp only [Option.bind_eq_some, fdiv] at h
  obtain ⟨P, hP, N, hN, INT, hINT, ratio, hratio, MOD0, hMOD0, FRAC0, hFRAC0, ⟨MOD1, FRAC1⟩, hred, hout⟩ := h
  split at hP
  · simp at hP
  next hR =>
  simp only [Option.some.injEq] at hP
  split at hN
  · simp at hN
  next hP0 =>
  simp only [Option.some.injEq] at hN
  split at hratio
  · simp at hratio
  next hsp =>
  simp only [Option.some.injEq] at hratio
  have hPFD : P = PFD regs REFin := by
    rw [← hP]; unfold PFD; push_cast; ring
  rw [outputDivider_eq] at hN hout
  have hNr : N = Nratio regs RFout REFin := by
    rw [← hN, hPFD]; rfl
  subst hratio
  rw [hPFD] at hP0 hMOD0
  rw [hNr] at hINT hFRAC0
  have hRc : Reg2.RCountVal.get regs.ADF4351_Reg2 ≠ 0 := by
    intro h0; apply hR; rw [h0]; simp
  have hM0 := (toU16_eq_some hMOD0).2
  have hF0 := (toU16_eq_some hFRAC0).2
  refine ⟨INT, MOD0, FRAC0, MOD1, FRAC1, hRc, hP0, hsp, hINT, hMOD0, hFRAC0, ?_, ?_⟩
  · split at hred
    · next hg =>
      split at hred
      · simp at hred
      next hD =>
      simp only [Option.some.injEq, Prod.mk.injEq] at hred
      left
      refine ⟨hg, hD, ?_, ?_⟩
      · rw [← hred.1]; exact Nat.mod_eq_of_lt (lt_of_le_of_lt (Nat.div_le_self _ _) hM0)
      · rw [← hred.2]; exact Nat.mod_eq_of_lt (lt_of_le_of_lt (Nat.div_le_self _ _) hF0)
    · next hg =>
      simp only [Option.some.injEq, Prod.mk.injEq] at hred
      right
      exact ⟨by simpa using hg, hred.1.symm, hred.2.symm⟩
  · have e1 : FRAC1 &&& 0x0FFF = FRAC1 % 4096 := Nat.and_pow_two_sub_one_eq_mod FRAC1 12
    have e2 : INT &&& 0xFFFF = INT % 65536 := Nat.and_pow_two_sub_one_eq_mod INT 16
    have e3 : ∀ m : Nat, m &&& 0x0FFF = m % 4096 := fun m => Nat.and_pow_two_sub_one_eq_mod m 12
    simp only [e1, e2, e3] at hout
    rw [← hPFD]
    by_cases hgt : (if MOD1 = 1 then 2 else MOD1) > 4095
    · rw [if_pos hgt] at hout ⊢
      exact (Option.some.inj hout).symm
    · rw [if_neg hgt] at hout ⊢
      exact (Option.some.inj hout).symm

/-- The two return paths: a call that returns has either taken the early return, with only
the stores made before the safety check, or stored the three calculated fields. -/
theorem update_shape {regs : RegisterBank} {RFout REFin sp : ℚ} {gcd a : Int} {out : Outcome}
    (h : ADF4351_UpdateFrequencyRegisters regs RFout REFin sp gcd a = some out) :
    out =
        { regs := { regs with
              ADF4351_Reg1 := Reg1.PhaseVal.set (Reg1.Prescaler.set regs.ADF4351_Reg1 1) 1
              ADF4351_Reg4 := Reg4.RfDivSel.set (Reg4.Feedback.set regs.ADF4351_Reg4 1)
                (ADF4351_Select_Output_Divider RFout).val }
          err := .ADF4351_Err_InvalidMOD
          RFoutCalc := .unwritten } ∨
    ∃ (INT MOD FRAC : Nat) (written : CalcOut),
      out =
        { regs := { regs with
              ADF4351_Reg0 := Reg0.IntVal.set (Reg0.FracVal.set regs.ADF4351_Reg0 FRAC) INT
              ADF4351_Reg1 := Reg1.ModVal.set
                (Reg1.PhaseVal.set (Reg1.Prescaler.set regs.ADF4351_Reg1 1) 1) MOD
              ADF4351_Reg4 := Reg4.RfDivSel.set (Reg4.Feedback.set regs.ADF4351_Reg4 1)
                (ADF4351_Select_Output_Divider RFout).val }
          err := .ADF4351_Err_None
          RFoutCalc := written } := by
  obtain ⟨INT, MOD0, FRAC0, MOD1, FRAC1, _, _, _, _, _, _, _, hout⟩ := update_cases h
  by_cases hgt : (if MOD1 = 1 then 2 else MOD1) > 4095
  · rw [if_pos hgt] at hout
    exact Or.inl hout
  · rw [if_neg hgt] at hout
    exact Or.inr ⟨_, _, _, _, hout⟩

/-- On every call whose behaviour is defined, the values the code computes before the
reduction are those of steps 4 to 6 of the planner.  With the gcd flag set, the pair is
divided by the greatest common divisor when that is below `2 ^ 15`, and becomes 0 and 0
when it is not (the divisor read back from the `int` then exceeds both operands). -/
theorem update_values {regs : RegisterBank} {RFout REFin sp : ℚ} {gcd a : Int} {out : Outcome}
    (h : ADF4351_UpdateFrequencyRegisters regs RFout REFin sp gcd a = some out) :
    (Reg2.RCountVal.get regs.ADF4351_Reg2 ≠ 0 ∧ PFD regs REFin ≠ 0 ∧ sp ≠ 0) ∧
    (toU16 (Nratio regs RFout REFin) = some (specINT regs RFout REFin) ∧
      toU16 (c_round (PFD regs REFin / sp)) = some (specMOD regs REFin sp) ∧
      toU16 (c_round ((Nratio regs RFout REFin - specINT regs RFout REFin)
        * specMOD regs REFin sp)) = some (specFRAC regs RFout REFin sp)) ∧
    ∃ MOD1 FRAC1 : Nat,
      ((gcd = 0 ∧ MOD1 = specMOD regs REFin sp ∧ FRAC1 = specFRAC regs RFout REFin sp) ∨
        (gcd ≠ 0 ∧ Nat.gcd (specMOD regs REFin sp) (specFRAC regs RFout REFin sp) ≠ 0 ∧
          Nat.gcd (specMOD regs REFin sp) (specFRAC regs RFout REFin sp) < 32768 ∧
          MOD1 = specMOD regs REFin sp
            / Nat.gcd (specMOD regs REFin sp) (specFRAC regs RFout REFin sp) ∧
          FRAC1 = specFRAC regs RFout REFin sp
            / Nat.gcd (specMOD regs REFin sp) (specFRAC regs RFout REFin sp)) ∨
        (gcd ≠ 0 ∧ 32768 ≤ Nat.gcd (specMOD regs REFin sp) (specFRAC regs RFout REFin sp) ∧
          MOD1 = 0 ∧ FRAC1 = 0)) ∧
      out =
        (if (if MOD1 = 1 then 2 else MOD1) > 4095 then
          { regs := { regs with
                ADF4351_Reg1 := Reg1.PhaseVal.set (Reg1.Prescaler.set regs.ADF4351_Reg1 1) 1
                ADF4351_Reg4 := Reg4.RfDivSel.set (Reg4.Feedback.set regs.ADF4351_Reg4 1)
                  (ADF4351_Select_Output_Divider RFout).val }
            err := .ADF4351_Err_InvalidMOD
            RFoutCalc := .unwritten }
        else
          { regs := { regs with
                ADF4351_Reg0 := Reg0.IntVal.set
                  (Reg0.FracVal.set regs.ADF4351_Reg0 (FRAC1 % 4096))
                  (specINT regs RFout REFin % 65536)
                ADF4351_Reg1 := Reg1.ModVal.set
                  (Reg1.PhaseVal.set (Reg1.Prescaler.set regs.ADF4351_Reg1 1) 1)
                  ((if MOD1 = 1 then 2 else MOD1) % 4096)
                ADF4351_Reg4 := Reg4.RfDivSel.set (Reg4.Feedback.set regs.ADF4351_Reg4 1)
                  (ADF4351_Select_Output_Divider RFout).val }
            err := .ADF4351_Err_None
            RFoutCalc :=
              if (if MOD1 = 1 then 2 else MOD1) = 0 then .nonfinite
              else .finite (((specINT regs RFout REFin : ℚ)
                  + (FRAC1 : ℚ) / ((if MOD1 = 1 then 2 else MOD1 : ℕ) : ℚ))
                * PFD regs REFin / (stepDivider RFout : ℚ)) }) := by
  obtain ⟨INT, MOD0, FRAC0, MOD1, FRAC1, hRc, hP0, hsp, hINT, hMOD0, hFRAC0, hred, hout⟩ :=
    update_cases h
  have eINT : INT = specINT regs RFout REFin := by
    obtain ⟨_, _, hpos, hneg⟩ := toU16_frac hINT
    unfold specINT
    rcases le_or_lt 0 (Nratio regs RFout REFin) with hN | hN
    · have := (hpos hN).1
      omega
    · have hfl : ⌊Nratio regs RFout REFin⌋ < 0 := Int.floor_lt.mpr (by simpa using hN)
      rw [hneg hN]; omega
  have eMOD : MOD0 = specMOD regs REFin sp := by
    have := (toU16_c_round hMOD0).1
    unfold specMOD; omega
  subst eINT eMOD
  have eFRAC : FRAC0 = specFRAC regs RFout REFin sp := by
    have := (toU16_c_round hFRAC0).1
    unfold specFRAC; omega
  subst eFRAC
  have hM16 := (toU16_eq_some hMOD0).2
  have hF16 := (toU16_eq_some hFRAC0).2
  refine ⟨⟨hRc, hP0, hsp⟩, ⟨hINT, hMOD0, hFRAC0⟩, MOD1, FRAC1, ?_, hout⟩
  rcases hred with ⟨hg, hD, hM1, hF1⟩ | ⟨hg, hM1, hF1⟩
  · right
    rw [divisor_eq hM16 hF16] at hD hM1 hF1
    by_cases hlt : Nat.gcd (specMOD regs REFin sp) (specFRAC regs RFout REFin sp) < 32768
    · rw [if_pos hlt] at hD hM1 hF1
      exact Or.inl ⟨hg, hD, hlt, hM1, hF1⟩
    · rw [if_neg hlt] at hM1 hF1
      refine Or.inr ⟨hg, by omega, ?_, ?_⟩
      · rw [hM1]; exact Nat.div_eq_of_lt (by omega)
      · rw [hF1]; exact Nat.div_eq_of_lt (by omega)
  · exact Or.inl ⟨hg, hM1, hF1⟩

/-- On every call whose behaviour is defined and whose divisor fits the `int` returned by
`gcd_iter`, the values the code computes are those of steps 1 to 8 of the planner, and the
outcome is decided by the final `MOD` alone. -/
theorem update_spec {regs : RegisterBank} {RFout REFin sp : ℚ} {gcd a : Int} {out : Outcome}
    (h : ADF4351_UpdateFrequencyRegisters regs RFout REFin sp gcd a = some out)
    (hfit : gcd ≠ 0 →
      Nat.gcd (specMOD regs REFin sp) (specFRAC regs RFout REFin sp) < 32768) :
    (Reg2.RCountVal.get regs.ADF4351_Reg2 ≠ 0 ∧ PFD regs REFin ≠ 0 ∧ sp ≠ 0) ∧
    (toU16 (Nratio regs RFout REFin) = some (specINT regs RFout REFin) ∧
      toU16 (c_round (PFD regs REFin / sp)) = some (specMOD regs REFin sp) ∧
      toU16 (c_round ((Nratio regs RFout REFin - specINT regs RFout REFin)
        * specMOD regs REFin sp)) = some (specFRAC regs RFout REFin sp) ∧
      (gcd ≠ 0 → Nat.gcd (specMOD regs REFin sp) (specFRAC regs RFout REFin sp) ≠ 0)) ∧
    out =
      (if finalMOD regs RFout REFin sp gcd > 4095 then
        { regs := { regs with
              ADF4351_Reg1 := Reg1.PhaseVal.set (Reg1.Prescaler.set regs.ADF4351_Reg1 1) 1
              ADF4351_Reg4 := Reg4.RfDivSel.set (Reg4.Feedback.set regs.ADF4351_Reg4 1)
                (ADF4351_Select_Output_Divider RFout).val }
          err := .ADF4351_Err_InvalidMOD
          RFoutCalc := .unwritten }
      else
        { regs := { regs with
              ADF4351_Reg0 := Reg0.IntVal.set
                (Reg0.FracVal.set regs.ADF4351_Reg0 (reducedFRAC regs RFout REFin sp gcd % 4096))
                (specINT regs RFout REFin % 65536)
              ADF4351_Reg1 := Reg1.ModVal.set
                (Reg1.PhaseVal.set (Reg1.Prescaler.set regs.ADF4351_Reg1 1) 1)
                (finalMOD regs RFout REFin sp gcd % 4096)
              ADF4351_Reg4 := Reg4.RfDivSel.set (Reg4.Feedback.set regs.ADF4351_Reg4 1)
                (ADF4351_Select_Output_Divider RFout).val }
          err := .ADF4351_Err_None
          RFoutCalc :=
            if finalMOD regs RFout REFin sp gcd = 0 then .nonfinite
            else .finite (((specINT regs RFout REFin : ℚ)
                + (reducedFRAC regs RFout REFin sp gcd : ℚ)
                  / (finalMOD regs RFout REFin sp gcd : ℚ))
              * PFD regs REFin / (stepDivider RFout : ℚ)) }) := by
  obtain ⟨h1, ⟨hINT, hMOD0, hFRAC0⟩, MOD1, FRAC1, hred, hout⟩ := update_values h
  have hred : (gcd = 0 ∧ MOD1 = specMOD regs REFin sp ∧ FRAC1 = specFRAC regs RFout REFin sp) ∨
      (gcd ≠ 0 ∧ Nat.gcd (specMOD regs REFin sp) (specFRAC regs RFout REFin sp) ≠ 0 ∧
        MOD1 = specMOD regs REFin sp
          / Nat.gcd (specMOD regs REFin sp) (specFRAC regs RFout REFin sp) ∧
        FRAC1 = specFRAC regs RFout REFin sp
          / Nat.gcd (specMOD regs REFin sp) (specFRAC regs RFout REFin sp)) := by
    rcases hred with hc | ⟨hg, hD, _, hM1, hF1⟩ | ⟨hg, hge, _, _⟩
    · exact Or.inl hc
    · exact Or.inr ⟨hg, hD, hM1, hF1⟩
    · have := hfit hg
      omega
  have eM1 : MOD1 = reducedMOD regs RFout REFin sp gcd := by
    unfold reducedMOD
    rcases hred with ⟨hg, h1, _⟩ | ⟨hg, _, h1, _⟩
    · rw [if_neg (by simpa using hg)]; exact h1
    · rw [if_pos hg]; exact h1
  have eF1 : FRAC1 = reducedFRAC regs RFout REFin sp gcd := by
    unfold reducedFRAC
    rcases hred with ⟨hg, _, h1⟩ | ⟨hg, _, _, h1⟩
    · rw [if_neg (by simpa using hg)]; exact h1
    · rw [if_pos hg]; exact h1
  refine ⟨h1, ⟨hINT, hMOD0, hFRAC0, ?_⟩, ?_⟩
  · intro hg
    rcases hred with ⟨hg0, _, _⟩ | ⟨_, hD, _, _⟩
    · exact absurd hg0 hg
    · exact hD
  · rw [hout, eM1, eF1]; rfl

theorem toU16_of_nonneg {x : ℚ} (h0 : 0 ≤ x) (h1 : x < 65536) :
    toU16 x = some ⌊x⌋.toNat := by
  have hfl : 0 ≤ ⌊x⌋ := Int.floor_nonneg.mpr h0
  have hlt : ⌊x⌋ < 65536 := Int.floor_lt.mpr (by simpa using h1)
  unfold toU16 c_trunc
  rw [if_pos h0, if_pos ⟨hfl, hlt⟩]

theorem toU16_c_round_of_nonneg {x : ℚ} (h0 : 0 ≤ x) (h1 : x + 1 / 2 < 65536) :
    toU16 (c_round x) = some (round x).toNat := by
  have hfl : 0 ≤ ⌊x + 1 / 2⌋ := Int.floor_nonneg.mpr (by linarith)
  have hlt : ⌊x + 1 / 2⌋ < 65536 := Int.floor_lt.mpr (by simpa using h1)
  unfold toU16 c_round
  rw [if_pos h0, c_trunc_intCast, if_pos ⟨hfl, hlt⟩, round_eq]

/-- A call returns as soon as no division by zero and no out-of-range conversion occurs. -/
theorem update_defined {regs : RegisterBank} {RFout REFin sp : ℚ} {gcd a : Int} {i m f : Nat}
    (hR : Reg2.RCountVal.get regs.ADF4351_Reg2 ≠ 0) (hP : PFD regs REFin ≠ 0) (hsp : sp ≠ 0)
    (hi : toU16 (Nratio regs RFout REFin) = some i)
    (hm : toU16 (c_round (PFD regs REFin / sp)) = some m)
    (hf : toU16 (c_round ((Nratio regs RFout REFin - i) * m)) = some f)
    (hg : gcd ≠ 0 → toU32 (gcd_iter INT_BITS m f) ≠ 0) :
    ∃ out, ADF4351_UpdateFrequencyRegisters regs RFout REFin sp gcd a = some out := by
  have hPFD : REFin * ((Reg2.RMul2.get regs.ADF4351_Reg2 + 1 : ℕ) : ℚ)
      / ((Reg2.RDiv2.get regs.ADF4351_Reg2 + 1 : ℕ) : ℚ)
      / ((Reg2.RCountVal.get regs.ADF4351_Reg2 : ℕ) : ℚ) = PFD regs REFin := by
    unfold PFD; push_cast; ring
  have hRq : ((Reg2.RCountVal.get regs.ADF4351_Reg2 : ℕ) : ℚ) ≠ 0 := by exact_mod_cast hR
  have hN : RFout * ((stepDivider RFout : ℕ) : ℚ) / PFD regs REFin = Nratio regs RFout REFin := rfl
  unfold ADF4351_UpdateFrequencyRegisters ADF4351_UpdateFrequencyRegisters_int
  simp only [fdiv, if_neg hRq, Option.some_bind, hPFD, if_neg hP, outputDivider_eq, hN, hi,
    if_neg hsp, hm, hf]
  by_cases hg0 : gcd ≠ 0
  · rw [if_pos hg0, if_neg (hg hg0)]
    simp only [Option.some_bind]
    split_ifs <;> exact ⟨_, rfl⟩
  · rw [if_neg hg0]
    simp only [Option.some_bind]
    split_ifs <;> exact ⟨_, rfl⟩

/-- Totality on the intended domain: positive reference and channel spacing, a non-zero
R counter, a non-negative target and values that fit sixteen bits. -/
theorem update_total {regs : RegisterBank} {RFout REFin sp : ℚ} {gcd a : Int}
    (hR : 1 ≤ Reg2.RCountVal.get regs.ADF4351_Reg2) (hREF : 0 < REFin) (hsp : 0 < sp)
    (hRF : 0 ≤ RFout) (hN : Nratio regs RFout REFin < 65536)
    (hM : PFD regs REFin / sp + 1 / 2 < 65536)
    (hg : gcd ≠ 0 → 1 / 2 ≤ PFD regs REFin / sp) :
    ∃ out, ADF4351_UpdateFrequencyRegisters regs RFout REFin sp gcd a = some out := by
  have hRq : (0 : ℚ) < (Reg2.RCountVal.get regs.ADF4351_Reg2 : ℚ) := by exact_mod_cast hR
  have hP : 0 < PFD regs REFin := by
    unfold PFD; positivity
  have hd : (0 : ℚ) < (stepDivider RFout : ℚ) := by exact_mod_cast stepDivider_pos RFout
  have hN0 : 0 ≤ Nratio regs RFout REFin := by
    unfold Nratio; positivity
  have hr0 : 0 ≤ PFD regs REFin / sp := by positivity
  have hi := toU16_of_nonneg hN0 hN
  have hm := toU16_c_round_of_nonneg hr0 hM
  set i := ⌊Nratio regs RFout REFin⌋.toNat with hidef
  set m := (round (PFD regs REFin / sp)).toNat with hmdef
  have hiq : ((i : ℤ) : ℚ) = (i : ℚ) := by norm_cast
  have hiZ : (i : ℤ) = ⌊Nratio regs RFout REFin⌋ :=
    Int.toNat_of_nonneg (Int.floor_nonneg.mpr hN0)
  have hx0 : 0 ≤ Nratio regs RFout REFin - i := by
    have := Int.floor_le (Nratio regs RFout REFin)
    rw [← hiZ, hiq] at this; linarith
  have hx1 : Nratio regs RFout REFin - i < 1 := by
    have := Int.lt_floor_add_one (Nratio regs RFout REFin)
    rw [← hiZ, hiq] at this; linarith
  have hm16 : m < 65536 := (toU16_eq_some hm).2
  have hmq : (m : ℚ) < 65536 := by exact_mod_cast hm16
  have hm0 : (0 : ℚ) ≤ (m : ℚ) := by positivity
  have hy0 : 0 ≤ (Nratio regs RFout REFin - i) * m := by positivity
  have hy1 : (Nratio regs RFout REFin - i) * m + 1 / 2 < 65536 := by
    have : (Nratio regs RFout REFin - i) * m ≤ 1 * m :=
      mul_le_mul_of_nonneg_right hx1.le hm0
    have hmle : (m : ℚ) ≤ 65535 := by
      have : m ≤ 65535 := by omega
      exact_mod_cast this
    linarith
  have hf := toU16_c_round_of_nonneg hy0 hy1
  refine update_defined (by omega) hP.ne' hsp.ne' hi hm hf ?_
  intro hg0 hD
  have hgcd : Nat.gcd m (round ((Nratio regs RFout REFin - i) * m)).toNat = 0 := by
    rw [divisor_eq hm16 (toU16_eq_some hf).2] at hD
    split at hD <;> omega
  have hm1 : round (PFD regs REFin / sp) = 0 := by
    have := (Nat.gcd_eq_zero_iff.mp hgcd).1
    have h0 : 0 ≤ round (PFD regs REFin / sp) := by
      rw [round_eq]; exact Int.floor_nonneg.mpr (by linarith)
    omega
  rw [round_eq, Int.floor_eq_iff] at hm1
  have := hg hg0
  have := hm1.2
  simp at this
  linarith

/-! ## Auxiliary facts: bit-fields -/

theorem reg0_IntVal_stored (w f i : Nat) :
    Reg0.IntVal.get (Reg0.IntVal.set (Reg0.FracVal.set w f) i) = i % 65536 := by
  simp only [BitField.get, BitField.set, BitField.next, Reg0.IntVal, Reg0.FracVal,
    Reg0.ControlBits]
  norm_num
  omega

theorem reg0_FracVal_stored (w f i : Nat) :
    Reg0.FracVal.get (Reg0.IntVal.set (Reg0.FracVal.set w f) i) = f % 4096 := by
  simp only [BitField.get, BitField.set, BitField.next, Reg0.IntVal, Reg0.FracVal,
    Reg0.ControlBits]
  norm_num
  omega

theorem reg1_ModVal_stored (w m : Nat) :
    Reg1.ModVal.get (Reg1.ModVal.set (Reg1.PhaseVal.set (Reg1.Prescaler.set w 1) 1) m)
      = m % 4096 := by
  simp only [BitField.get, BitField.set, BitField.next, Reg1.ModVal, Reg1.PhaseVal,
    Reg1.Prescaler, Reg1.ControlBits]
  norm_num
  omega

/-- The word of register 1 after the two forced stores: bits 0 to 14 and bits 28 and up are
kept, `PhaseVal` and `Prescaler` read 1. -/
theorem reg1_forced (w : Nat) :
    (Reg1.PhaseVal.set (Reg1.Prescaler.set w 1) 1) % 2 ^ 15 = w % 2 ^ 15 ∧
    (Reg1.PhaseVal.set (Reg1.Prescaler.set w 1) 1) / 2 ^ 28 = w / 2 ^ 28 ∧
    Reg1.PhaseVal.get (Reg1.PhaseVal.set (Reg1.Prescaler.set w 1) 1) = 1 ∧
    Reg1.Prescaler.get (Reg1.PhaseVal.set (Reg1.Prescaler.set w 1) 1) = 1 := by
  simp only [BitField.get, BitField.set, BitField.next, Reg1.ModVal, Reg1.PhaseVal,
    Reg1.Prescaler, Reg1.ControlBits]
  norm_num
  omega

/-- The word of register 1 on success: only bits 3 to 27 are written. -/
theorem reg1_success (w m : Nat) :
    Reg1.Prescaler.get (Reg1.ModVal.set (Reg1.PhaseVal.set (Reg1.Prescaler.set w 1) 1) m) = 1 ∧
    Reg1.PhaseVal.get (Reg1.ModVal.set (Reg1.PhaseVal.set (Reg1.Prescaler.set w 1) 1) m) = 1 ∧
    Reg1.PhaseAdjust.get (Reg1.ModVal.set (Reg1.PhaseVal.set (Reg1.Prescaler.set w 1) 1) m)
      = Reg1.PhaseAdjust.get w := by
  simp only [BitField.get, BitField.set, BitField.next, Reg1.ModVal, Reg1.PhaseVal,
    Reg1.Prescaler, Reg1.PhaseAdjust, Reg1.ControlBits]
  norm_num
  omega

/-- The word of register 4 after its two stores: bits 0 to 19 and bits 24 and up are kept,
`RfDivSel` holds the stored value and `Feedback` reads 1. -/
theorem reg4_forced (w v : Nat) :
    (Reg4.RfDivSel.set (Reg4.Feedback.set w 1) v) % 2 ^ 20 = w % 2 ^ 20 ∧
    (Reg4.RfDivSel.set (Reg4.Feedback.set w 1) v) / 2 ^ 24 = w / 2 ^ 24 ∧
    Reg4.RfDivSel.get (Reg4.RfDivSel.set (Reg4.Feedback.set w 1) v) = v % 8 ∧
    Reg4.Feedback.get (Reg4.RfDivSel.set (Reg4.Feedback.set w 1) v) = 1 := by
  simp only [BitField.get, BitField.set, BitField.next, Reg4.RfDivSel, Reg4.Feedback,
    Reg4.BandClkDiv, Reg4.VcoPowerDown, Reg4.Mtld, Reg4.AuxSel, Reg4.AuxEnable, Reg4.AuxPower,
    Reg4.OutEnable, Reg4.OutPower, Reg4.ControlBits]
  norm_num
  omega

/-! ## Auxiliary facts: the arithmetic of INT, FRAC and MOD -/

/-- What a returning call makes known about the quantities of the planner. -/
theorem plan_facts {regs : RegisterBank} {RFout REFin sp : ℚ} {gcd a : Int} {out : Outcome}
    (h : ADF4351_UpdateFrequencyRegisters regs RFout REFin sp gcd a = some out) :
    (-1 < Nratio regs RFout REFin - specINT regs RFout REFin ∧
      Nratio regs RFout REFin - specINT regs RFout REFin < 1) ∧
    (0 ≤ Nratio regs RFout REFin → (specINT regs RFout REFin : ℤ) = ⌊Nratio regs RFout REFin⌋) ∧
    specINT regs RFout REFin < 65536 ∧
    (specMOD regs REFin sp : ℤ) = round (PFD regs REFin / sp) ∧
    (specFRAC regs RFout REFin sp : ℤ)
      = round ((Nratio regs RFout REFin - specINT regs RFout REFin) * specMOD regs REFin sp) ∧
    |(Nratio regs RFout REFin - specINT regs RFout REFin) * specMOD regs REFin sp
        - specFRAC regs RFout REFin sp| ≤ 1 / 2 ∧
    specFRAC regs RFout REFin sp ≤ specMOD regs REFin sp := by
  obtain ⟨_, ⟨hI, hM, hF⟩, _⟩ := update_values h
  obtain ⟨hx0, hx1, hpos, _⟩ := toU16_frac hI
  obtain ⟨hMr, _, _⟩ := toU16_c_round hM
  obtain ⟨hFr, hFa, _⟩ := toU16_c_round hF
  refine ⟨⟨hx0, hx1⟩, fun h0 => (hpos h0).1, (toU16_eq_some hI).2, hMr, hFr, hFa, ?_⟩
  have hm0 : (0 : ℚ) ≤ (specMOD regs REFin sp : ℚ) := by positivity
  have h1 : (Nratio regs RFout REFin - specINT regs RFout REFin) * specMOD regs REFin sp
      ≤ 1 * specMOD regs REFin sp := mul_le_mul_of_nonneg_right hx1.le hm0
  have h2 := (abs_le.mp hFa).1
  have h3 : (specFRAC regs RFout REFin sp : ℚ) < (specMOD regs REFin sp : ℚ) + 1 := by linarith
  have h4 : specFRAC regs RFout REFin sp < specMOD regs REFin sp + 1 := by exact_mod_cast h3
  omega

/-- The programmed fraction is within one step of the fractional part it stands for, also
after a reduction by a common divisor `D` and after the promotion of a modulus 1 to 2. -/
theorem resolution_core (x : ℚ) (M F D M1 F1 : ℕ) (hx : x < 1)
    (habs : |x * M - F| ≤ 1 / 2) (hD : 0 < D) (hM : M = M1 * D) (hF : F = F1 * D)
    (hM1 : M1 ≠ 0) :
    |(F1 : ℚ) / ((if M1 = 1 then 2 else M1 : ℕ) : ℚ) - x|
      ≤ 1 / ((if M1 = 1 then 2 else M1 : ℕ) : ℚ) := by
  have hDq : (1 : ℚ) ≤ (D : ℚ) := by exact_mod_cast hD
  have hM1q : (1 : ℚ) ≤ (M1 : ℚ) := by
    have : 1 ≤ M1 := Nat.one_le_iff_ne_zero.mpr hM1
    exact_mod_cast this
  subst hM hF
  have key : |x * M1 - F1| ≤ 1 / 2 := by
    have e : x * ((M1 * D : ℕ) : ℚ) - ((F1 * D : ℕ) : ℚ) = (x * M1 - F1) * D := by
      push_cast; ring
    rw [e, abs_mul, abs_of_pos (by linarith : (0 : ℚ) < D)] at habs
    have hnn := abs_nonneg (x * M1 - F1)
    nlinarith
  obtain ⟨k1, k2⟩ := abs_le.mp key
  by_cases h1 : M1 = 1
  · subst h1
    simp only [if_true, Nat.cast_one, mul_one, Nat.cast_ofNat] at k1 k2 ⊢
    have hF1 : (F1 : ℚ) < 2 := by linarith
    have hF1n : F1 < 2 := by exact_mod_cast hF1
    rw [abs_le]
    interval_cases F1
    · simp only [Nat.cast_zero] at k1 k2 ⊢
      constructor <;> linarith
    · simp only [Nat.cast_one] at k1 k2 ⊢
      constructor <;> linarith
  · rw [if_neg h1]
    have hpos : (0 : ℚ) < (M1 : ℚ) := by linarith
    have e : (F1 : ℚ) / (M1 : ℚ) - x = (F1 - x * M1) / M1 := by field_simp; ring
    have hk : |(F1 : ℚ) - x * M1| ≤ 1 := by
      rw [abs_sub_comm]; linarith
    rw [e, abs_div, abs_of_pos hpos]
    gcongr

theorem reducedFRAC_le_reducedMOD {regs : RegisterBank} {RFout REFin sp : ℚ} {gcd a : Int}
    {out : Outcome}
    (h : ADF4351_UpdateFrequencyRegisters regs RFout REFin sp gcd a = some out) :
    reducedFRAC regs RFout REFin sp gcd ≤ reducedMOD regs RFout REFin sp gcd := by
  have hle := (plan_facts h).2.2.2.2.2.2
  unfold reducedFRAC reducedMOD
  split
  · exact Nat.div_le_div_right hle
  · exact hle

/-- The fields a successful call stores are the planner's values, unmasked, when the
divisor fits the `int` returned by `gcd_iter`. -/
theorem success_fields {regs : RegisterBank} {RFout REFin sp : ℚ} {gcd a : Int} {out : Outcome}
    (h : ADF4351_UpdateFrequencyRegisters regs RFout REFin sp gcd a = some out)
    (hfit : gcd ≠ 0 →
      Nat.gcd (specMOD regs REFin sp) (specFRAC regs RFout REFin sp) < 32768)
    (herr : out.err = .ADF4351_Err_None) :
    finalMOD regs RFout REFin sp gcd ≤ 4095 ∧
    Reg0.IntVal.get out.regs.ADF4351_Reg0 = specINT regs RFout REFin ∧
    Reg0.FracVal.get out.regs.ADF4351_Reg0 = reducedFRAC regs RFout REFin sp gcd ∧
    Reg1.ModVal.get out.regs.ADF4351_Reg1 = finalMOD regs RFout REFin sp gcd ∧
    Reg4.RfDivSel.get out.regs.ADF4351_Reg4 = (ADF4351_Select_Output_Divider RFout).val ∧
    out.RFoutCalc =
      (if finalMOD regs RFout REFin sp gcd = 0 then .nonfinite
       else .finite (((specINT regs RFout REFin : ℚ)
                + (reducedFRAC regs RFout REFin sp gcd : ℚ)
                  / (finalMOD regs RFout REFin sp gcd : ℚ))
              * PFD regs REFin / (stepDivider RFout : ℚ))) := by
  obtain ⟨_, _, hout⟩ := update_spec h hfit
  have hI := (plan_facts h).2.2.1
  have hle := reducedFRAC_le_reducedMOD h
  have hv := select_val_le RFout
  have h4 := (reg4_forced regs.ADF4351_Reg4 (ADF4351_Select_Output_Divider RFout).val).2.2.1
  by_cases hgt : finalMOD regs RFout REFin sp gcd > 4095
  · rw [if_pos hgt] at hout
    subst hout
    simp at herr
  · rw [if_neg hgt] at hout
    have hF : reducedFRAC regs RFout REFin sp gcd < 4096 := by
      unfold finalMOD at hgt
      split at hgt <;> omega
    subst hout
    refine ⟨by omega, ?_, ?_, ?_, ?_, rfl⟩
    · simp only []
      rw [reg0_IntVal_stored]; omega
    · simp only []
      rw [reg0_FracVal_stored]; omega
    · simp only []
      rw [reg1_ModVal_stored]; omega
    · simp only []
      rw [h4]; omega

/-! ## Auxiliary facts: the port pins -/

theorem testBit_setPin (p k j : Nat) (hj : j < 8) :
    ((p ||| (1 <<< k)) % 256).testBit j = (p.testBit j || decide (k = j)) := by
  have h256 : (256 : Nat) = 2 ^ 8 := by norm_num
  rw [h256, Nat.testBit_mod_two_pow, Nat.testBit_or, Nat.one_shiftLeft, Nat.testBit_two_pow]
  simp [hj]

theorem testBit_clrPin (p k j : Nat) (hj : j < 8) :
    ((p &&& notMask (1 <<< k)) % 256).testBit j = (p.testBit j && !decide (k = j)) := by
  have h256 : (256 : Nat) = 2 ^ 8 := by norm_num
  have h255 : (0xFF : Nat) = 2 ^ 8 - 1 := by norm_num
  unfold notMask
  rw [h256, Nat.testBit_mod_two_pow, Nat.testBit_and, Nat.testBit_xor, h255,
    Nat.testBit_two_pow_sub_one, Nat.one_shiftLeft, Nat.testBit_two_pow]
  simp [hj]

theorem and_0x80_ne_zero (data : Nat) : (data &&& 0x80 ≠ 0) ↔ data.testBit 7 = true := by
  have h : (0x80 : Nat) = 2 ^ 7 := by norm_num
  rw [h, Nat.and_two_pow]
  cases data.testBit 7 <;> simp

/-! Levels of the three lines after a pin of the port is set or cleared. -/

theorem lineLE_set_CS (p : Nat) :
    lineLE ((p ||| (1 <<< SOFT_SPI_CS_PIN)) % 256) = true := by
  unfold lineLE
  rw [testBit_setPin p _ _ (by decide)]
  simp [ADF_PIN_LE, SOFT_SPI_CS_PIN, ADF_PIN_LE, ADF_PIN_DATA, ADF_PIN_CLK, PB0, PB1, PB2]

theorem lineLE_clr_CS (p : Nat) :
    lineLE ((p &&& notMask (1 <<< SOFT_SPI_CS_PIN)) % 256) = false := by
  unfold lineLE
  rw [testBit_clrPin p _ _ (by decide)]
  simp [ADF_PIN_LE, SOFT_SPI_CS_PIN, ADF_PIN_LE, ADF_PIN_DATA, ADF_PIN_CLK, PB0, PB1, PB2]

theorem lineLE_set_MOSI (p : Nat) :
    lineLE ((p ||| (1 <<< SOFT_SPI_MOSI_PIN)) % 256) = lineLE p := by
  unfold lineLE
  rw [testBit_setPin p _ _ (by decide)]
  simp [ADF_PIN_LE, SOFT_SPI_MOSI_PIN, ADF_PIN_LE, ADF_PIN_DATA, ADF_PIN_CLK, PB0, PB1, PB2]

theorem lineLE_clr_MOSI (p : Nat) :
    lineLE ((p &&& notMask (1 <<< SOFT_SPI_MOSI_PIN)) % 256) = lineLE p := by
  unfold lineLE
  rw [testBit_clrPin p _ _ (by decide)]
  simp [ADF_PIN_LE, SOFT_SPI_MOSI_PIN, ADF_PIN_LE, ADF_PIN_DATA, ADF_PIN_CLK, PB0, PB1, PB2]

theorem lineLE_set_SCK (p : Nat) :
    lineLE ((p ||| (1 <<< SOFT_SPI_SCK_PIN)) % 256) = lineLE p := by
  unfold lineLE
  rw [testBit_setPin p _ _ (by decide)]
  simp [ADF_PIN_LE, SOFT_SPI_SCK_PIN, ADF_PIN_LE, ADF_PIN_DATA, ADF_PIN_CLK, PB0, PB1, PB2]

theorem lineLE_clr_SCK (p : Nat) :
    lineLE ((p &&& notMask (1 <<< SOFT_SPI_SCK_PIN)) % 256) = lineLE p := by
  unfold lineLE
  rw [testBit_clrPin p _ _ (by decide)]
  simp [ADF_PIN_LE, SOFT_SPI_SCK_PIN, ADF_PIN_LE, ADF_PIN_DATA, ADF_PIN_CLK, PB0, PB1, PB2]

theorem lineDATA_set_CS (p : Nat) :
    lineDATA ((p ||| (1 <<< SOFT_SPI_CS_PIN)) % 256) = lineDATA p := by
  unfold lineDATA
  rw [testBit_setPin p _ _ (by decide)]
  simp [ADF_PIN_DATA, SOFT_SPI_CS_PIN, ADF_PIN_LE, ADF_PIN_DATA, ADF_PIN_CLK, PB0, PB1, PB2]

theorem lineDATA_clr_CS (p : Nat) :
    lineDATA ((p &&& notMask (1 <<< SOFT_SPI_CS_PIN)) % 256) = lineDATA p := by
  unfold lineDATA
  rw [testBit_clrPin p _ _ (by decide)]
  simp [ADF_PIN_DATA, SOFT_SPI_CS_PIN, ADF_PIN_LE, ADF_PIN_DATA, ADF_PIN_CLK, PB0, PB1, PB2]

theorem lineDATA_set_MOSI (p : Nat) :
    lineDATA ((p ||| (1 <<< SOFT_SPI_MOSI_PIN)) % 256) = true := by
  unfold lineDATA
  rw [testBit_setPin p _ _ (by decide)]
  simp [ADF_PIN_DATA, SOFT_SPI_MOSI_PIN, ADF_PIN_LE, ADF_PIN_DATA, ADF_PIN_CLK, PB0, PB1, PB2]

theorem lineDATA_clr_MOSI (p : Nat) :
    lineDATA ((p &&& notMask (1 <<< SOFT_SPI_MOSI_PIN)) % 256) = false := by
  unfold lineDATA
  rw [testBit_clrPin p _ _ (by decide)]
  simp [ADF_PIN_DATA, SOFT_SPI_MOSI_PIN, ADF_PIN_LE, ADF_PIN_DATA, ADF_PIN_CLK, PB0, PB1, PB2]

theorem lineDATA_set_SCK (p : Nat) :
    lineDATA ((p ||| (1 <<< SOFT_SPI_SCK_PIN)) % 256) = lineDATA p := by
  unfold lineDATA
  rw [testBit_setPin p _ _ (by decide)]
  simp [ADF_PIN_DATA, SOFT_SPI_SCK_PIN, ADF_PIN_LE, ADF_PIN_DATA, ADF_PIN_CLK, PB0, PB1, PB2]

theorem lineDATA_clr_SCK (p : Nat) :
    lineDATA ((p &&& notMask (1 <<< SOFT_SPI_SCK_PIN)) % 256) = lineDATA p := by
  unfold lineDATA
  rw [testBit_clrPin p _ _ (by decide)]
  simp [ADF_PIN_DATA, SOFT_SPI_SCK_PIN, ADF_PIN_LE, ADF_PIN_DATA, ADF_PIN_CLK, PB0, PB1, PB2]

theorem lineCLK_set_CS (p : Nat) :
    lineCLK ((p ||| (1 <<< SOFT_SPI_CS_PIN)) % 256) = lineCLK p := by
  unfold lineCLK
  rw [testBit_setPin p _ _ (by decide)]
  simp [ADF_PIN_CLK, SOFT_SPI_CS_PIN, ADF_PIN_LE, ADF_PIN_DATA, ADF_PIN_CLK, PB0, PB1, PB2]

theorem lineCLK_clr_CS (p : Nat) :
    lineCLK ((p &&& notMask (1 <<< SOFT_SPI_CS_PIN)) % 256) = lineCLK p := by
  unfold lineCLK
  rw [testBit_clrPin p _ _ (by decide)]
  simp [ADF_PIN_CLK, SOFT_SPI_CS_PIN, ADF_PIN_LE, ADF_PIN_DATA, ADF_PIN_CLK, PB0, PB1, PB2]

theorem lineCLK_set_MOSI (p : Nat) :
    lineCLK ((p ||| (1 <<< SOFT_SPI_MOSI_PIN)) % 256) = lineCLK p := by
  unfold lineCLK
  rw [testBit_setPin p _ _ (by decide)]
  simp [ADF_PIN_CLK, SOFT_SPI_MOSI_PIN, ADF_PIN_LE, ADF_PIN_DATA, ADF_PIN_CLK, PB0, PB1, PB2]

theorem lineCLK_clr_MOSI (p : Nat) :
    lineCLK ((p &&& notMask (1 <<< SOFT_SPI_MOSI_PIN)) % 256) = lineCLK p := by
  unfold lineCLK
  rw [testBit_clrPin p _ _ (by decide)]
  simp [ADF_PIN_CLK, SOFT_SPI_MOSI_PIN, ADF_PIN_LE, ADF_PIN_DATA, ADF_PIN_CLK, PB0, PB1, PB2]

theorem lineCLK_set_SCK (p : Nat) :
    lineCLK ((p ||| (1 <<< SOFT_SPI_SCK_PIN)) % 256) = true := by
  unfold lineCLK
  rw [testBit_setPin p _ _ (by decide)]
  simp [ADF_PIN_CLK, SOFT_SPI_SCK_PIN, ADF_PIN_LE, ADF_PIN_DATA, ADF_PIN_CLK, PB0, PB1, PB2]

theorem lineCLK_clr_SCK (p : Nat) :
    lineCLK ((p &&& notMask (1 <<< SOFT_SPI_SCK_PIN)) % 256) = false := by
  unfold lineCLK
  rw [testBit_clrPin p _ _ (by decide)]
  simp [ADF_PIN_CLK, SOFT_SPI_SCK_PIN, ADF_PIN_LE, ADF_PIN_DATA, ADF_PIN_CLK, PB0, PB1, PB2]

/-! ## Auxiliary facts: the observer along the transfer -/

theorem observe_setPORTB (m0 : Monitor) (s : Bus) (v : Nat) :
    observe m0 (s.setPORTB v).trace = (observe m0 s.trace).step (Event.portb (v % 256)) := by
  simp [observe, Bus.setPORTB, List.foldl_append]

theorem observe_delay_us (m0 : Monitor) (s : Bus) (n : Nat) :
    observe m0 (s.delay_us n).trace = observe m0 s.trace := by
  simp [observe, Bus.delay_us, List.foldl_append, Monitor.step]

theorem Clocked.refl (m : Monitor) (h : lineCLK m.port = false) : Monitor.Clocked [] m m := by
  refine ⟨h, rfl, rfl, by simp, rfl, by simp, rfl, by simp, rfl, rfl⟩

theorem Clocked.trans {a b : List Bool} {m1 m2 m3 : Monitor}
    (h12 : Monitor.Clocked a m1 m2) (h23 : Monitor.Clocked b m2 m3) :
    Monitor.Clocked (a ++ b) m1 m3 := by
  obtain ⟨_, l1, e1, s1, d1, sh1, f1, st1, lf1, lr1⟩ := h12
  obtain ⟨c2, l2, e2, s2, d2, sh2, f2, st2, lf2, lr2⟩ := h23
  refine ⟨c2, l2.trans l1, ?_, ?_, d2.trans d1, ?_, f2.trans f1, ?_, lf2.trans lf1,
    lr2.trans lr1⟩
  · rw [e2, e1, List.length_append]; omega
  · rw [s2, s1, List.append_assoc]
  · rw [sh2, sh1, List.append_assoc]
  · rw [st2, st1, l1, List.length_append]
    split <;> omega

/-- One pass of the transfer loop: one rising clock edge, at which the data line carries
bit 7 of `data`. -/
theorem transfer_bit_clocked (m0 : Monitor) (data : Nat) (s : Bus)
    (hport : (observe m0 s.trace).port = s.PORTB) (hclk : lineCLK s.PORTB = false) :
    (observe m0 (soft_spi_transfer_bit data s).trace).port = (soft_spi_transfer_bit data s).PORTB ∧
    Monitor.Clocked [data.testBit 7] (observe m0 s.trace)
      (observe m0 (soft_spi_transfer_bit data s).trace) := by
  have hb := and_0x80_ne_zero data
  unfold soft_spi_transfer_bit
  by_cases hd : data &&& 0x80 ≠ 0
  · have hd7 := hb.mp hd
    simp only [if_pos hd, observe_setPORTB, observe_delay_us]
    simp only [Monitor.Clocked, Monitor.step, Bus.setPORTB, Bus.delay_us, hport, hd7,
      Nat.mod_mod, lineLE_set_CS, lineLE_clr_CS, lineLE_set_MOSI, lineLE_clr_MOSI, lineLE_set_SCK, lineLE_clr_SCK, lineDATA_set_CS,
      lineDATA_clr_CS, lineDATA_set_MOSI, lineDATA_clr_MOSI, lineDATA_set_SCK, lineDATA_clr_SCK,
      lineCLK_set_CS, lineCLK_clr_CS, lineCLK_set_MOSI, lineCLK_clr_MOSI, lineCLK_set_SCK, lineCLK_clr_SCK, hclk]
    cases lineLE s.PORTB <;> simp
  · have hd7 : data.testBit 7 = false := by
      cases h7 : data.testBit 7
      · rfl
      · exact absurd (hb.mpr h7) hd
    simp only [if_neg hd, observe_setPORTB, observe_delay_us]
    simp only [Monitor.Clocked, Monitor.step, Bus.setPORTB, Bus.delay_us, hport, hd7,
      Nat.mod_mod, lineLE_set_CS, lineLE_clr_CS, lineLE_set_MOSI, lineLE_clr_MOSI, lineLE_set_SCK, lineLE_clr_SCK, lineDATA_set_CS,
      lineDATA_clr_CS, lineDATA_set_MOSI, lineDATA_clr_MOSI, lineDATA_set_SCK, lineDATA_clr_SCK,
      lineCLK_set_CS, lineCLK_clr_CS, lineCLK_set_MOSI, lineCLK_clr_MOSI, lineCLK_set_SCK, lineCLK_clr_SCK, hclk]
    cases lineLE s.PORTB <;> simp

theorem transfer_loop_clocked (m0 : Monitor) (n : Nat) :
    ∀ (data : Nat) (s : Bus), (observe m0 s.trace).port = s.PORTB → lineCLK s.PORTB = false →
      (observe m0 (soft_spi_transfer_loop n data s).trace).port
          = (soft_spi_transfer_loop n data s).PORTB ∧
      Monitor.Clocked (shiftedBits n data) (observe m0 s.trace)
        (observe m0 (soft_spi_transfer_loop n data s).trace) := by
  induction n with
  | zero =>
    intro data s hport hclk
    exact ⟨hport, Clocked.refl _ (by rw [hport]; exact hclk)⟩
  | succ n ih =>
    intro data s hport hclk
    obtain ⟨hp1, hc1⟩ := transfer_bit_clocked m0 data s hport hclk
    have hclk1 : lineCLK (soft_spi_transfer_bit data s).PORTB = false := by
      rw [← hp1]; exact hc1.1
    obtain ⟨hp2, hc2⟩ := ih ((data <<< 1) % 256) (soft_spi_transfer_bit data s) hp1 hclk1
    exact ⟨hp2, Clocked.trans hc1 hc2⟩

theorem shiftedBits_eight (data : Nat) : shiftedBits 8 (data % 256) = bitsMSB 8 data := by
  have h256 : (256 : Nat) = 2 ^ 8 := by norm_num
  simp only [shiftedBits, bitsMSB, List.range_succ, List.range_zero, List.nil_append,
    List.cons_append, List.map_cons, List.map_nil, h256, Nat.testBit_mod_two_pow,
    Nat.testBit_shiftLeft]
  simp

/-- One call of `soft_spi_transfer`: eight rising clock edges carrying bits 7 down to 0 of
the byte, the clock low at the end. -/
theorem transfer_clocked (m0 : Monitor) (data : Nat) (s : Bus)
    (hport : (observe m0 s.trace).port = s.PORTB) (hclk : lineCLK s.PORTB = false) :
    (observe m0 (soft_spi_transfer data s).trace).port = (soft_spi_transfer data s).PORTB ∧
    Monitor.Clocked (bitsMSB 8 data) (observe m0 s.trace)
      (observe m0 (soft_spi_transfer data s).trace) := by
  unfold soft_spi_transfer
  rw [← shiftedBits_eight]
  exact transfer_loop_clocked m0 8 (data % 256) s hport hclk

theorem bitsMSB_word (w : Nat) :
    bitsMSB 8 ((w >>> 24) &&& 0xFF) ++ bitsMSB 8 ((w >>> 16) &&& 0xFF)
      ++ bitsMSB 8 ((w >>> 8) &&& 0xFF) ++ bitsMSB 8 (w &&& 0xFF) = bitsMSB 32 w := by
  have h255 : (0xFF : Nat) = 2 ^ 8 - 1 := by norm_num
  simp only [bitsMSB, List.range_succ, List.range_zero, List.nil_append,
    List.cons_append, List.map_cons, List.map_nil, List.map_append, h255, Nat.testBit_and,
    Nat.testBit_shiftRight, Nat.testBit_two_pow_sub_one]
  simp

theorem bitsToNat_bitsMSB_lt : ∀ y : Fin 256, bitsToNat (bitsMSB 8 y.val) = y.val := by
  decide!

theorem bitsToNat_bitsMSB (x : Nat) : bitsToNat (bitsMSB 8 x) = x % 256 := by
  have h256 : (256 : Nat) = 2 ^ 8 := by norm_num
  have e : bitsMSB 8 x = bitsMSB 8 (x % 256) := by
    simp only [bitsMSB, List.range_succ, List.range_zero, List.nil_append,
      List.cons_append, List.map_cons, List.map_nil, h256, Nat.testBit_mod_two_pow]
    simp
  rw [e]
  exact bitsToNat_bitsMSB_lt ⟨x % 256, Nat.mod_lt _ (by norm_num)⟩

theorem bytesOf_word (w : Nat) : bytesOf (bitsMSB 32 w) = wordBytes w := by
  have h255 : (0xFF : Nat) = 2 ^ 8 - 1 := by norm_num
  have hb : ∀ x : Nat, bytesOf (bitsMSB 8 x) = [x % 256] := by
    intro x
    rw [← bitsToNat_bitsMSB]
    simp [bitsMSB, List.range_succ, bytesOf]
  have happ : ∀ (x : Nat) (rest : List Bool),
      bytesOf (bitsMSB 8 x ++ rest) = (x % 256) :: bytesOf rest := by
    intro x rest
    rw [← bitsToNat_bitsMSB]
    simp [bitsMSB, List.range_succ, bytesOf]
  rw [← bitsMSB_word, List.append_assoc, List.append_assoc, happ, happ, happ, hb]
  simp only [wordBytes, h255, Nat.and_pow_two_sub_one_eq_mod, Nat.shiftRight_eq_div_pow,
    Nat.mod_mod]

theorem observe_chip_enable (m0 : Monitor) (s : Bus) :
    observe m0 (soft_spi_chip_enable s).trace
      = (observe m0 s.trace).step
          (Event.portb ((s.PORTB &&& notMask (1 <<< SOFT_SPI_CS_PIN)) % 256)) := by
  unfold soft_spi_chip_enable
  rw [observe_setPORTB]

theorem observe_chip_disable (m0 : Monitor) (s : Bus) :
    observe m0 (soft_spi_chip_disable s).trace
      = (observe m0 s.trace).step
          (Event.portb ((s.PORTB ||| (1 <<< SOFT_SPI_CS_PIN)) % 256)) := by
  unfold soft_spi_chip_disable
  rw [observe_setPORTB]

/-- One call of `ADF4351_WriteRegister32`, seen by the observer: 32 rising clock edges
carrying bits 31 down to 0 of the word, no change of the data line while the clock is high,
and, when LE was high before, exactly one frame. -/
theorem writeRegister_observed (m0 : Monitor) (w : Nat) (s : Bus)
    (hport : (observe m0 s.trace).port = s.PORTB) (hclk : lineCLK s.PORTB = false) :
    (observe m0 (ADF4351_WriteRegister32 w s).trace).port
        = (ADF4351_WriteRegister32 w s).PORTB ∧
    lineCLK (ADF4351_WriteRegister32 w s).PORTB = false ∧
    lineLE (ADF4351_WriteRegister32 w s).PORTB = true ∧
    (observe m0 (ADF4351_WriteRegister32 w s).trace).edges = (observe m0 s.trace).edges + 32 ∧
    (observe m0 (ADF4351_WriteRegister32 w s).trace).sampled
        = (observe m0 s.trace).sampled ++ bitsMSB 32 w ∧
    (observe m0 (ADF4351_WriteRegister32 w s).trace).dataSafe = (observe m0 s.trace).dataSafe ∧
    (lineLE s.PORTB = true →
      Monitor.Framed (bitsMSB 32 w) (observe m0 s.trace)
        (observe m0 (ADF4351_WriteRegister32 w s).trace)) := by
  -- LE is driven low
  have hP0 : (soft_spi_chip_enable s).PORTB
      = (s.PORTB &&& notMask (1 <<< SOFT_SPI_CS_PIN)) % 256 := rfl
  have hp0 : (observe m0 (soft_spi_chip_enable s).trace).port = (soft_spi_chip_enable s).PORTB := by
    rw [observe_chip_enable, hP0]; rfl
  have hc0 : lineCLK (soft_spi_chip_enable s).PORTB = false := by
    rw [hP0, lineCLK_clr_CS, hclk]
  have hl0 : lineLE (soft_spi_chip_enable s).PORTB = false := by
    rw [hP0, lineLE_clr_CS]
  have hd0 : lineDATA (soft_spi_chip_enable s).PORTB = lineDATA s.PORTB := by
    rw [hP0, lineDATA_clr_CS]
  -- four bytes
  obtain ⟨hp1, k1⟩ := transfer_clocked m0 ((w >>> 24) &&& 0xFF) _ hp0 hc0
  have hc1 := k1.1; rw [hp1] at hc1
  obtain ⟨hp2, k2⟩ := transfer_clocked m0 ((w >>> 16) &&& 0xFF) _ hp1 hc1
  have hc2 := k2.1; rw [hp2] at hc2
  obtain ⟨hp3, k3⟩ := transfer_clocked m0 ((w >>> 8) &&& 0xFF) _ hp2 hc2
  have hc3 := k3.1; rw [hp3] at hc3
  obtain ⟨hp4, k4⟩ := transfer_clocked m0 (w &&& 0xFF) _ hp3 hc3
  have k := Clocked.trans (Clocked.trans (Clocked.trans k1 k2) k3) k4
  rw [bitsMSB_word] at k
  obtain ⟨c4, l4, e4, s4, d4, sh4, f4, st4, lf4, lr4⟩ := k
  rw [hp4] at c4 l4
  rw [hp0] at l4 st4
  rw [hl0] at l4
  have hlen : (bitsMSB 32 w).length = 32 := by simp [bitsMSB]
  rw [hlen] at e4
  simp only [hl0, Bool.false_eq_true, if_false] at st4
  rw [observe_chip_enable] at e4 s4 d4 sh4 f4 st4 lf4 lr4
  simp only [Monitor.step, hport, lineLE_set_CS, lineLE_clr_CS, lineLE_set_MOSI, lineLE_clr_MOSI, lineLE_set_SCK, lineLE_clr_SCK, lineDATA_set_CS, lineDATA_clr_CS, lineDATA_set_MOSI, lineDATA_clr_MOSI, lineDATA_set_SCK, lineDATA_clr_SCK, lineCLK_set_CS, lineCLK_clr_CS, lineCLK_set_MOSI, lineCLK_clr_MOSI, lineCLK_set_SCK, lineCLK_clr_SCK, hclk, Bool.not_false, Bool.and_false,
    Bool.false_and, Bool.and_true, Bool.or_false, Bool.false_or, bne_self_eq_false,
    Bool.not_true, Bool.false_eq_true, if_false] at e4 s4 d4 sh4 f4 st4 lf4 lr4
  -- LE is driven high
  have hW : ADF4351_WriteRegister32 w s = soft_spi_chip_disable
      (soft_spi_transfer (w &&& 0xFF) (soft_spi_transfer ((w >>> 8) &&& 0xFF)
        (soft_spi_transfer ((w >>> 16) &&& 0xFF) (soft_spi_transfer ((w >>> 24) &&& 0xFF)
          (soft_spi_chip_enable s))))) := rfl
  rw [hW]
  generalize soft_spi_transfer (w &&& 0xFF) (soft_spi_transfer ((w >>> 8) &&& 0xFF)
        (soft_spi_transfer ((w >>> 16) &&& 0xFF) (soft_spi_transfer ((w >>> 24) &&& 0xFF)
          (soft_spi_chip_enable s)))) = t at *
  rw [observe_chip_disable]
  have hPd : (soft_spi_chip_disable t).PORTB = (t.PORTB ||| (1 <<< SOFT_SPI_CS_PIN)) % 256 := rfl
  rw [hPd]
  simp only [Monitor.step, Monitor.Framed, hp4, c4, l4, e4, s4, d4, f4, st4, lr4, hlen,
    lineLE_set_CS, lineLE_clr_CS, lineLE_set_MOSI, lineLE_clr_MOSI, lineLE_set_SCK, lineLE_clr_SCK, lineDATA_set_CS, lineDATA_clr_CS, lineDATA_set_MOSI, lineDATA_clr_MOSI, lineDATA_set_SCK, lineDATA_clr_SCK, lineCLK_set_CS, lineCLK_clr_CS, lineCLK_set_MOSI, lineCLK_clr_MOSI, lineCLK_set_SCK, lineCLK_clr_SCK, Bool.not_false, Bool.and_false,
    Bool.false_and, Bool.and_true, Bool.or_false, Bool.false_or, bne_self_eq_false,
    Bool.not_true, Bool.false_eq_true, if_false, Bool.true_and, if_true, Bool.or_true,
    true_and, and_true]
  intro hle
  rw [hle] at sh4 lf4
  simp only [if_true, List.nil_append] at sh4 lf4
  exact ⟨by rw [sh4], lf4⟩

theorem transfer_bit_clk_low (data : Nat) (s : Bus) :
    lineCLK (soft_spi_transfer_bit data s).PORTB = false := by
  unfold soft_spi_transfer_bit
  simp only [Bus.setPORTB, Bus.delay_us]
  exact lineCLK_clr_SCK _

theorem transfer_loop_clk_low (n : Nat) :
    ∀ (data : Nat) (s : Bus), lineCLK s.PORTB = false →
      lineCLK (soft_spi_transfer_loop n data s).PORTB = false := by
  induction n with
  | zero => intro data s h; exact h
  | succ n ih =>
    intro data s _
    exact ih _ _ (transfer_bit_clk_low data s)

theorem soft_spi_init_at_rest (s : Bus) :
    lineCLK (soft_spi_init s).PORTB = false ∧ lineLE (soft_spi_init s).PORTB = true := by
  unfold soft_spi_init
  simp only [Bus.setPORTB, Bus.setDDRB]
  exact ⟨lineCLK_clr_SCK _, by rw [lineLE_clr_SCK, lineLE_set_CS]⟩

/-! ## Auxiliary facts: the packing of the register words -/

/-- Assigning a bit-field that lies above every bit set so far adds its value in place. -/
theorem BitField.set_fresh (f : BitField) (w v : Nat) (h : w < 2 ^ f.lo) :
    f.set w v = w + (v % 2 ^ f.width) * 2 ^ f.lo ∧ f.set w v < 2 ^ (f.lo + f.width) := by
  have hle : 2 ^ f.lo ≤ 2 ^ (f.lo + f.width) := Nat.pow_le_pow_right (by norm_num) (by omega)
  have e : f.set w v = w + (v % 2 ^ f.width) * 2 ^ f.lo := by
    unfold BitField.set
    rw [Nat.mod_eq_of_lt h, Nat.div_eq_of_lt (lt_of_lt_of_le h hle)]
    simp
  refine ⟨e, ?_⟩
  rw [e, Nat.pow_add]
  have hv : v % 2 ^ f.width < 2 ^ f.width := Nat.mod_lt _ (by positivity)
  have hv1 : v % 2 ^ f.width + 1 ≤ 2 ^ f.width := hv
  calc w + v % 2 ^ f.width * 2 ^ f.lo
      < 2 ^ f.lo + v % 2 ^ f.width * 2 ^ f.lo := by omega
    _ = (v % 2 ^ f.width + 1) * 2 ^ f.lo := by ring
    _ ≤ 2 ^ f.width * 2 ^ f.lo := Nat.mul_le_mul_right _ hv1
    _ = 2 ^ f.lo * 2 ^ f.width := by ring

/-- Bit-fields that follow one another, assigned in order, pack their values contiguously. -/
theorem foldl_set_contiguous (fs : List (BitField × Nat)) :
    ∀ lo w : Nat, w < 2 ^ lo → contiguousFrom lo (fs.map Prod.fst) = true →
      fs.foldl (fun w fv => fv.1.set w fv.2) w
        = w + packContiguous lo (fs.map fun fv => (fv.1.width, fv.2)) := by
  induction fs with
  | nil => intro lo w _ _; simp [packContiguous]
  | cons fv rest ih =>
    intro lo w hw hc
    obtain ⟨f, v⟩ := fv
    simp only [List.map_cons, contiguousFrom, Bool.and_eq_true, beq_iff_eq] at hc
    obtain ⟨hlo, hrest⟩ := hc
    subst hlo
    obtain ⟨e, hb⟩ := BitField.set_fresh f w v hw
    simp only [List.foldl_cons, List.map_cons, packContiguous]
    rw [ih (f.lo + f.width) (f.set w v) hb hrest, e]
    omega

theorem assignAll_contiguous (fs : List (BitField × Nat))
    (hc : contiguousFrom 0 (fs.map Prod.fst) = true) :
    assignAll fs = packContiguous 0 (fs.map fun fv => (fv.1.width, fv.2)) := by
  unfold assignAll
  rw [foldl_set_contiguous fs 0 0 (by norm_num) hc]
  simp

theorem reg0_word_eq (t FracVal IntVal r0 : Nat) :
    Reg0.word t FracVal IntVal r0 = specWord t [(12, FracVal), (16, IntVal), (1, r0)] := by
  unfold Reg0.word
  exact assignAll_contiguous _ (by rfl)

theorem reg1_word_eq (t ModVal PhaseVal Prescaler PhaseAdjust r0 : Nat) :
    Reg1.word t ModVal PhaseVal Prescaler PhaseAdjust r0
      = specWord t [(12, ModVal), (12, PhaseVal), (1, Prescaler), (1, PhaseAdjust), (3, r0)] := by
  unfold Reg1.word
  exact assignAll_contiguous _ (by rfl)

theorem reg2_word_eq (t CounterReset CPTristate PowerDown PhasePolarity LDP LDF CPCurrent
    DoubleBuffer RCountVal RDiv2 RMul2 MuxOut LowNoiseSpur r0 : Nat) :
    Reg2.word t CounterReset CPTristate PowerDown PhasePolarity LDP LDF CPCurrent DoubleBuffer
        RCountVal RDiv2 RMul2 MuxOut LowNoiseSpur r0
      = specWord t [(1, CounterReset), (1, CPTristate), (1, PowerDown), (1, PhasePolarity),
          (1, LDP), (1, LDF), (4, CPCurrent), (1, DoubleBuffer), (10, RCountVal), (1, RDiv2),
          (1, RMul2), (3, MuxOut), (2, LowNoiseSpur), (1, r0)] := by
  unfold Reg2.word
  exact assignAll_contiguous _ (by rfl)

theorem reg3_word_eq (t ClkDivVal ClkDivMod r0 CsrEn r1 ChargeCh AntibacklashW BandSelMode
    r2 : Nat) :
    Reg3.word t ClkDivVal ClkDivMod r0 CsrEn r1 ChargeCh AntibacklashW BandSelMode r2
      = specWord t [(12, ClkDivVal), (2, ClkDivMod), (1, r0), (1, CsrEn), (2, r1),
          (1, ChargeCh), (1, AntibacklashW), (1, BandSelMode), (8, r2)] := by
  unfold Reg3.word
  exact assignAll_contiguous _ (by rfl)

theorem reg4_word_eq (t OutPower OutEnable AuxPower AuxEnable AuxSel Mtld VcoPowerDown
    BandClkDiv RfDivSel Feedback r0 : Nat) :
    Reg4.word t OutPower OutEnable AuxPower AuxEnable AuxSel Mtld VcoPowerDown BandClkDiv
        RfDivSel Feedback r0
      = specWord t [(2, OutPower), (1, OutEnable), (2, AuxPower), (1, AuxEnable), (1, AuxSel),
          (1, Mtld), (1, VcoPowerDown), (8, BandClkDiv), (3, RfDivSel), (1, Feedback),
          (8, r0)] := by
  unfold Reg4.word
  exact assignAll_contiguous _ (by rfl)

theorem reg5_word_eq (t r0 r1 r2 LdPinMode r3 : Nat) :
    Reg5.word t r0 r1 r2 LdPinMode r3
      = specWord t [(16, r0), (2, r1), (1, r2), (2, LdPinMode), (8, r3)] := by
  unfold Reg5.word
  exact assignAll_contiguous _ (by rfl)

/-- A reserved field that holds zero adds nothing to the word. -/
theorem specWord_append_zero (t : Nat) (fs : List (Nat × Nat)) (width : Nat) :
    specWord t (fs ++ [(width, 0)]) = specWord t fs := by
  have h : ∀ (gs : List (Nat × Nat)) (lo : Nat),
      packContiguous lo (gs ++ [(width, 0)]) = packContiguous lo gs := by
    intro gs
    induction gs with
    | nil => intro lo; simp [packContiguous]
    | cons g rest ih =>
      intro lo
      obtain ⟨gw, gv⟩ := g
      show gv % 2 ^ gw * 2 ^ lo + packContiguous (lo + gw) (rest ++ [(width, 0)])
        = gv % 2 ^ gw * 2 ^ lo + packContiguous (lo + gw) rest
      rw [ih]
  unfold specWord
  exact h ((3, t) :: fs) 0

/-- Every field of register 3 reads back the value assigned to it. -/
theorem reg3_readback (t ClkDivVal ClkDivMod r0 CsrEn r1 ChargeCh AntibacklashW BandSelMode
    r2 : Nat) :
    Reg3.ControlBits.get
        (Reg3.word t ClkDivVal ClkDivMod r0 CsrEn r1 ChargeCh AntibacklashW BandSelMode r2)
      = t % 2 ^ 3 ∧
    Reg3.ClkDivVal.get
        (Reg3.word t ClkDivVal ClkDivMod r0 CsrEn r1 ChargeCh AntibacklashW BandSelMode r2)
      = ClkDivVal % 2 ^ 12 ∧
    Reg3.ClkDivMod.get
        (Reg3.word t ClkDivVal ClkDivMod r0 CsrEn r1 ChargeCh AntibacklashW BandSelMode r2)
      = ClkDivMod % 2 ^ 2 ∧
    Reg3.CsrEn.get
        (Reg3.word t ClkDivVal ClkDivMod r0 CsrEn r1 ChargeCh AntibacklashW BandSelMode r2)
      = CsrEn % 2 ^ 1 ∧
    Reg3.ChargeCh.get
        (Reg3.word t ClkDivVal ClkDivMod r0 CsrEn r1 ChargeCh AntibacklashW BandSelMode r2)
      = ChargeCh % 2 ^ 1 ∧
    Reg3.AntibacklashW.get
        (Reg3.word t ClkDivVal ClkDivMod r0 CsrEn r1 ChargeCh AntibacklashW BandSelMode r2)
      = AntibacklashW % 2 ^ 1 ∧
    Reg3.BandSelMode.get
        (Reg3.word t ClkDivVal ClkDivMod r0 CsrEn r1 ChargeCh AntibacklashW BandSelMode r2)
      = BandSelMode % 2 ^ 1 := by
  rw [reg3_word_eq]
  simp only [specWord, packContiguous, BitField.get, BitField.next, Reg3.ControlBits,
    Reg3.ClkDivVal, Reg3.ClkDivMod, Reg3._reserved_0, Reg3.CsrEn, Reg3._reserved_1,
    Reg3.ChargeCh, Reg3.AntibacklashW, Reg3.BandSelMode]
  norm_num
  omega

/-- The tag and `LdPinMode` of register 5 read back the values assigned to them. -/
theorem reg5_readback (t r0 r1 r2 LdPinMode r3 : Nat) :
    Reg5.ControlBits.get (Reg5.word t r0 r1 r2 LdPinMode r3) = t % 2 ^ 3 ∧
    Reg5.LdPinMode.get (Reg5.word t r0 r1 r2 LdPinMode r3) = LdPinMode % 2 ^ 2 := by
  rw [reg5_word_eq]
  simp only [specWord, packContiguous, BitField.get, BitField.next, Reg5.ControlBits,
    Reg5._reserved_0, Reg5._reserved_1, Reg5._reserved_2, Reg5.LdPinMode]
  norm_num
  omega

/-! ## Auxiliary facts: the stored fraction against the stored modulus -/

/-- On every successful call whose divisor fits the `int` returned by `gcd_iter`, the
stored `FracVal` is at most the stored `ModVal`, and it is strictly smaller when the gcd flag
is set. -/
theorem stored_frac_le_mod {regs : RegisterBank} {RFout REFin sp : ℚ} {gcd a : Int}
    {out : Outcome}
    (h : ADF4351_UpdateFrequencyRegisters regs RFout REFin sp gcd a = some out)
    (hfit : gcd ≠ 0 →
      Nat.gcd (specMOD regs REFin sp) (specFRAC regs RFout REFin sp) < 32768)
    (herr : out.err = .ADF4351_Err_None) :
    Reg0.FracVal.get out.regs.ADF4351_Reg0 ≤ Reg1.ModVal.get out.regs.ADF4351_Reg1 ∧
    (gcd ≠ 0 →
      Reg0.FracVal.get out.regs.ADF4351_Reg0 < Reg1.ModVal.get out.regs.ADF4351_Reg1) := by
  obtain ⟨_, _, hFv, hMv, _, _⟩ := success_fields h hfit herr
  obtain ⟨_, ⟨_, _, _, hD⟩, _⟩ := update_spec h hfit
  have hle := reducedFRAC_le_reducedMOD h
  have hFM := (plan_facts h).2.2.2.2.2.2
  rw [hFv, hMv]
  unfold finalMOD
  constructor
  · split <;> omega
  · intro hg
    have hD := Nat.pos_of_ne_zero (hD hg)
    have e1 : reducedMOD regs RFout REFin sp gcd = specMOD regs REFin sp
        / Nat.gcd (specMOD regs REFin sp) (specFRAC regs RFout REFin sp) := by
      unfold reducedMOD; rw [if_pos hg]
    have e2 : reducedFRAC regs RFout REFin sp gcd = specFRAC regs RFout REFin sp
        / Nat.gcd (specMOD regs REFin sp) (specFRAC regs RFout REFin sp) := by
      unfold reducedFRAC; rw [if_pos hg]
    by_cases h1 : reducedMOD regs RFout REFin sp gcd = 1
    · rw [if_pos h1]; omega
    · rw [if_neg h1]
      rcases Nat.lt_or_ge (reducedFRAC regs RFout REFin sp gcd)
        (reducedMOD regs RFout REFin sp gcd) with hlt | hge
      · exact hlt
      · exfalso
        have heq : reducedFRAC regs RFout REFin sp gcd = reducedMOD regs RFout REFin sp gcd :=
          Nat.le_antisymm hle hge
        have hM := Nat.div_mul_cancel
          (Nat.gcd_dvd_left (specMOD regs REFin sp) (specFRAC regs RFout REFin sp))
        have hF := Nat.div_mul_cancel
          (Nat.gcd_dvd_right (specMOD regs REFin sp) (specFRAC regs RFout REFin sp))
        rw [← e1] at hM
        rw [← e2, heq] at hF
        have hsame : specFRAC regs RFout REFin sp = specMOD regs REFin sp := by
          rw [← hF, hM]
        rw [hsame, Nat.gcd_self] at e1 hD
        rw [e1, Nat.div_self hD] at h1
        exact h1 rfl

/-! ## Auxiliary facts: the domain of the planner and its verdict -/

theorem lt_of_round_lt {x : ℚ} (h : round x < 65536) : x + 1 / 2 < 65536 := by
  rw [round_eq] at h
  have := Int.floor_lt.mp h
  simpa using this

theorem half_le_of_one_le_round {x : ℚ} (h : 1 ≤ round x) : 1 / 2 ≤ x := by
  rw [round_eq] at h
  have := Int.le_floor.mp h
  simp only [Int.cast_one] at this
  linarith

/-- The call returns on the stated domain: a non-zero R counter, positive reference and
channel spacing, a non-negative target, `N` and `round(PFD / spacing)` below `2 ^ 16`, and
`round(PFD / spacing)` at least 1 when the gcd flag is set. -/
theorem update_returns {regs : RegisterBank} {RFout REFin sp : ℚ} {gcd a : Int}
    (hR : 1 ≤ Reg2.RCountVal.get regs.ADF4351_Reg2) (hREF : 0 < REFin) (hsp : 0 < sp)
    (hRF : 0 ≤ RFout) (hN : Nratio regs RFout REFin < 65536)
    (hM : round (PFD regs REFin / sp) < 65536)
    (hg : gcd ≠ 0 → 1 ≤ round (PFD regs REFin / sp)) :
    ∃ out, ADF4351_UpdateFrequencyRegisters regs RFout REFin sp gcd a = some out :=
  update_total hR hREF hsp hRF hN (lt_of_round_lt hM) fun h => half_le_of_one_le_round (hg h)

/-- A successful call that stores a `ModVal` other than 0 has used a divisor that fits the
`int` returned by `gcd_iter`. -/
theorem fits_of_ModVal_ne_zero {regs : RegisterBank} {RFout REFin sp : ℚ} {gcd a : Int}
    {out : Outcome}
    (h : ADF4351_UpdateFrequencyRegisters regs RFout REFin sp gcd a = some out)
    (herr : out.err = .ADF4351_Err_None)
    (hM : Reg1.ModVal.get out.regs.ADF4351_Reg1 ≠ 0) :
    gcd ≠ 0 → Nat.gcd (specMOD regs REFin sp) (specFRAC regs RFout REFin sp) < 32768 := by
  intro hg
  obtain ⟨_, _, MOD1, FRAC1, hred, hout⟩ := update_values h
  rcases hred with ⟨h0, _, _⟩ | ⟨_, _, hlt, _, _⟩ | ⟨_, _, hM1, _⟩
  · exact absurd h0 hg
  · exact hlt
  · exfalso
    subst hM1
    rw [if_neg (by decide)] at hout
    subst hout
    apply hM
    simp only []
    rw [reg1_ModVal_stored]
    rfl

/-- With the gcd flag set, a successful call whose divisor `g = gcd(MOD, FRAC)` fits the
`int` returned by `gcd_iter` stores `FRAC / g` and `MOD / g` (2 when that is 1); when the
computed `FRAC` is not zero the two stored fields are coprime. -/
theorem reduction_coprime {regs : RegisterBank} {RFout REFin sp : ℚ} {gcd a : Int}
    {out : Outcome}
    (h : ADF4351_UpdateFrequencyRegisters regs RFout REFin sp gcd a = some out)
    (hfit : gcd ≠ 0 →
      Nat.gcd (specMOD regs REFin sp) (specFRAC regs RFout REFin sp) < 32768)
    (hgcd : gcd ≠ 0) (herr : out.err = .ADF4351_Err_None) :
    Reg0.FracVal.get out.regs.ADF4351_Reg0 = specFRAC regs RFout REFin sp
      / Nat.gcd (specMOD regs REFin sp) (specFRAC regs RFout REFin sp) ∧
    Reg1.ModVal.get out.regs.ADF4351_Reg1 =
      (if specMOD regs REFin sp
          / Nat.gcd (specMOD regs REFin sp) (specFRAC regs RFout REFin sp) = 1 then 2
       else specMOD regs REFin sp
          / Nat.gcd (specMOD regs REFin sp) (specFRAC regs RFout REFin sp)) ∧
    (specFRAC regs RFout REFin sp ≠ 0 →
      Nat.gcd (Reg0.FracVal.get out.regs.ADF4351_Reg0)
        (Reg1.ModVal.get out.regs.ADF4351_Reg1) = 1) := by
  obtain ⟨_, hFv, hMv, _⟩ := (success_fields h hfit herr).2
  obtain ⟨_, ⟨_, _, _, hD⟩, _⟩ := update_spec h hfit
  have hD := hD hgcd
  have hle := reducedFRAC_le_reducedMOD h
  have e1 : reducedMOD regs RFout REFin sp gcd = specMOD regs REFin sp
      / Nat.gcd (specMOD regs REFin sp) (specFRAC regs RFout REFin sp) := by
    unfold reducedMOD; rw [if_pos hgcd]
  have e2 : reducedFRAC regs RFout REFin sp gcd = specFRAC regs RFout REFin sp
      / Nat.gcd (specMOD regs REFin sp) (specFRAC regs RFout REFin sp) := by
    unfold reducedFRAC; rw [if_pos hgcd]
  refine ⟨by rw [hFv, e2], by rw [hMv]; unfold finalMOD; rw [e1], ?_⟩
  intro hfrac
  have hcop : Nat.Coprime (reducedMOD regs RFout REFin sp gcd)
      (reducedFRAC regs RFout REFin sp gcd) := by
    rw [e1, e2]; exact Nat.coprime_div_gcd_div_gcd (Nat.pos_of_ne_zero hD)
  have hF1 : 0 < reducedFRAC regs RFout REFin sp gcd := by
    rw [e2]
    exact Nat.div_pos (Nat.le_of_dvd (Nat.pos_of_ne_zero hfrac) (Nat.gcd_dvd_right _ _))
      (Nat.pos_of_ne_zero hD)
  rw [hFv, hMv]
  unfold finalMOD
  by_cases h1 : reducedMOD regs RFout REFin sp gcd = 1
  · rw [if_pos h1]
    have : reducedFRAC regs RFout REFin sp gcd = 1 := by omega
    rw [this]
    rfl
  · rw [if_neg h1]
    exact hcop.symm

/-- The resolution bound: on a successful call with a positive phase-detector frequency, a
stored `ModVal` other than 0 and a divisor that fits the `int` returned by `gcd_iter`, the
value written to `*RFoutCalc` is `(IntVal + FracVal / ModVal) * PFD / divider` and is within
`PFD / ModVal / divider` of `RFout`. -/
theorem resolution_bound {regs : RegisterBank} {RFout REFin sp : ℚ} {gcd a : Int}
    {out : Outcome}
    (h : ADF4351_UpdateFrequencyRegisters regs RFout REFin sp gcd a = some out)
    (hfit : gcd ≠ 0 →
      Nat.gcd (specMOD regs REFin sp) (specFRAC regs RFout REFin sp) < 32768)
    (herr : out.err = .ADF4351_Err_None)
    (hP : 0 < PFD regs REFin)
    (hM : Reg1.ModVal.get out.regs.ADF4351_Reg1 ≠ 0) :
    ∃ v : ℚ, out.RFoutCalc = .finite v ∧
      v = ((Reg0.IntVal.get out.regs.ADF4351_Reg0 : ℚ)
            + (Reg0.FracVal.get out.regs.ADF4351_Reg0 : ℚ)
              / (Reg1.ModVal.get out.regs.ADF4351_Reg1 : ℚ))
          * PFD regs REFin / (2 ^ Reg4.RfDivSel.get out.regs.ADF4351_Reg4 : ℚ) ∧
      |v - RFout| ≤ PFD regs REFin / (Reg1.ModVal.get out.regs.ADF4351_Reg1 : ℚ)
          / (2 ^ Reg4.RfDivSel.get out.regs.ADF4351_Reg4 : ℚ) := by
  obtain ⟨_, hIv, hFv, hMv, hDv, hcalc⟩ := success_fields h hfit herr
  obtain ⟨⟨_, hx1⟩, _, _, _, _, habs, _⟩ := plan_facts h
  obtain ⟨_, ⟨_, _, _, hD⟩, _⟩ := update_spec h hfit
  rw [hMv] at hM
  rw [if_neg hM] at hcalc
  have hdiv : (2 ^ Reg4.RfDivSel.get out.regs.ADF4351_Reg4 : ℚ) = (stepDivider RFout : ℚ) := by
    rw [hDv, stepDivider_eq_pow]; push_cast; rfl
  rw [hIv, hFv, hMv, hdiv]
  refine ⟨_, hcalc, rfl, ?_⟩
  -- the fraction is within one step of the fractional part of `N`
  have hcore : |(reducedFRAC regs RFout REFin sp gcd : ℚ) / (finalMOD regs RFout REFin sp gcd : ℚ)
        - (Nratio regs RFout REFin - specINT regs RFout REFin)|
      ≤ 1 / (finalMOD regs RFout REFin sp gcd : ℚ) := by
    have hM1 : reducedMOD regs RFout REFin sp gcd ≠ 0 := by
      intro h0; apply hM; unfold finalMOD; rw [h0]; rfl
    unfold finalMOD
    by_cases hg : gcd ≠ 0
    · have hD := hD hg
      have e1 : reducedMOD regs RFout REFin sp gcd = specMOD regs REFin sp
          / Nat.gcd (specMOD regs REFin sp) (specFRAC regs RFout REFin sp) := by
        unfold reducedMOD; rw [if_pos hg]
      have e2 : reducedFRAC regs RFout REFin sp gcd = specFRAC regs RFout REFin sp
          / Nat.gcd (specMOD regs REFin sp) (specFRAC regs RFout REFin sp) := by
        unfold reducedFRAC; rw [if_pos hg]
      exact resolution_core _ _ _ _ _ _ hx1 habs (Nat.pos_of_ne_zero hD)
        (by rw [e1]; exact (Nat.div_mul_cancel (Nat.gcd_dvd_left _ _)).symm)
        (by rw [e2]; exact (Nat.div_mul_cancel (Nat.gcd_dvd_right _ _)).symm) hM1
    · have e1 : reducedMOD regs RFout REFin sp gcd = specMOD regs REFin sp := by
        unfold reducedMOD; rw [if_neg hg]
      have e2 : reducedFRAC regs RFout REFin sp gcd = specFRAC regs RFout REFin sp := by
        unfold reducedFRAC; rw [if_neg hg]
      exact resolution_core _ _ _ 1 _ _ hx1 habs Nat.one_pos
        (by rw [e1, Nat.mul_one]) (by rw [e2, Nat.mul_one]) hM1
  have hMq : (0 : ℚ) < (finalMOD regs RFout REFin sp gcd : ℚ) := by
    exact_mod_cast Nat.pos_of_ne_zero hM
  have hd : (0 : ℚ) < (stepDivider RFout : ℚ) := by exact_mod_cast stepDivider_pos RFout
  have hRF : RFout = Nratio regs RFout REFin * PFD regs REFin / (stepDivider RFout : ℚ) := by
    have hP0 := hP.ne'
    have hd0 := hd.ne'
    unfold Nratio; field_simp
  have e : ((specINT regs RFout REFin : ℚ)
        + (reducedFRAC regs RFout REFin sp gcd : ℚ) / (finalMOD regs RFout REFin sp gcd : ℚ))
        * PFD regs REFin / (stepDivider RFout : ℚ) - RFout
      = ((reducedFRAC regs RFout REFin sp gcd : ℚ) / (finalMOD regs RFout REFin sp gcd : ℚ)
          - (Nratio regs RFout REFin - specINT regs RFout REFin))
        * (PFD regs REFin / (stepDivider RFout : ℚ)) := by
    have key : ∀ I Fr Mf N P d R : ℚ, R = N * P / d →
        (I + Fr / Mf) * P / d - R = (Fr / Mf - (N - I)) * (P / d) := by
      intro I Fr Mf N P d R hR
      rw [hR]; ring
    exact key _ _ _ _ _ _ _ hRF
  have e' : PFD regs REFin / (finalMOD regs RFout REFin sp gcd : ℚ) / (stepDivider RFout : ℚ)
      = 1 / (finalMOD regs RFout REFin sp gcd : ℚ)
        * (PFD regs REFin / (stepDivider RFout : ℚ)) := by
    field_simp
  rw [e, e', abs_mul, abs_of_pos (div_pos hP hd)]
  exact mul_le_mul_of_nonneg_right hcore (div_pos hP hd).le

/-! ## The claims -/

/-- C1 (counterexample): with a negative target (`RFout = -1/16`, `REFin = 64`, spacing 16,
R counter 1, no gcd) the call succeeds with `N = -1/16 < 65536` and stores `IntVal = 0` and
`FracVal = 0`, whereas `floor(N) = -1` and `round((N - floor(N)) * 4) = 4`. -/
theorem C1_counterexample :
    ∃ out, ADF4351_UpdateFrequencyRegisters golden (-1 / 16) 64 16 0 0 = some out ∧
      out.err = .ADF4351_Err_None ∧
      1 ≤ Reg2.RCountVal.get golden.ADF4351_Reg2 ∧
      Nratio golden (-1 / 16) 64 = -1 / 16 ∧
      Reg0.IntVal.get out.regs.ADF4351_Reg0 = 0 ∧
      Reg0.FracVal.get out.regs.ADF4351_Reg0 = 0 ∧
      ⌊Nratio golden (-1 / 16) 64⌋ = -1 ∧
      round ((Nratio golden (-1 / 16) 64 - (⌊Nratio golden (-1 / 16) 64⌋ : ℚ))
        * (round (PFD golden 64 / 16) : ℚ)) = 4 := by
  refine ⟨{ regs := { golden with
              ADF4351_Reg0 := 0, ADF4351_Reg1 := 134250529, ADF4351_Reg4 := 15499324 },
            err := .ADF4351_Err_None, RFoutCalc := .finite 0 }, ?_, rfl, ?_, ?_, ?_, ?_, ?_, ?_⟩
  · decide!
  · decide
  · decide!
  · decide
  · decide
  · decide!
  · decide!

/-- C1 (amended): for every call with `gcd = 0`, `RCountVal >= 1`, positive `REFin` and
`OutputChannelSpacing`, `N < 65536`, a target `RFout >= 0` and
`round(PFD / OutputChannelSpacing) < 65536`, the call returns, and when it returns
`ADF4351_Err_None` the stored `IntVal` is `floor(N)`, the stored `ModVal` is
`round(PFD / OutputChannelSpacing)` (2 when that is 1) and the stored `FracVal` is
`round((N - floor(N)) * round(PFD / OutputChannelSpacing))`. -/
theorem C1_fields (regs : RegisterBank) (RFout REFin sp : ℚ) (a : Int)
    (hR : 1 ≤ Reg2.RCountVal.get regs.ADF4351_Reg2) (hREF : 0 < REFin) (hsp : 0 < sp)
    (hN : Nratio regs RFout REFin < 65536) (hRF : 0 ≤ RFout)
    (hM : round (PFD regs REFin / sp) < 65536) :
    ∃ out, ADF4351_UpdateFrequencyRegisters regs RFout REFin sp 0 a = some out ∧
      (out.err = .ADF4351_Err_None →
        (Reg0.IntVal.get out.regs.ADF4351_Reg0 : ℤ) = ⌊Nratio regs RFout REFin⌋ ∧
        (Reg1.ModVal.get out.regs.ADF4351_Reg1 : ℤ)
          = (if round (PFD regs REFin / sp) = 1 then 2 else round (PFD regs REFin / sp)) ∧
        (Reg0.FracVal.get out.regs.ADF4351_Reg0 : ℤ)
          = round ((Nratio regs RFout REFin - (⌊Nratio regs RFout REFin⌋ : ℚ))
              * (round (PFD regs REFin / sp) : ℚ))) := by
  obtain ⟨out, h⟩ : ∃ out, ADF4351_UpdateFrequencyRegisters regs RFout REFin sp 0 a = some out :=
    update_returns hR hREF hsp hRF hN hM fun h0 => absurd rfl h0
  refine ⟨out, h, fun herr => ?_⟩
  obtain ⟨_, hIv, hFv, hMv, _, _⟩ := success_fields h (fun h0 => absurd rfl h0) herr
  obtain ⟨_, hI, _, hMr, hFr, _, _⟩ := plan_facts h
  have hRq : (0 : ℚ) < (Reg2.RCountVal.get regs.ADF4351_Reg2 : ℚ) := by exact_mod_cast hR
  have hP : 0 < PFD regs REFin := by unfold PFD; positivity
  have hd : (0 : ℚ) < (stepDivider RFout : ℚ) := by exact_mod_cast stepDivider_pos RFout
  have hN0 : 0 ≤ Nratio regs RFout REFin := by unfold Nratio; positivity
  have hI := hI hN0
  have eM : reducedMOD regs RFout REFin sp 0 = specMOD regs REFin sp := by
    unfold reducedMOD; simp
  have eF : reducedFRAC regs RFout REFin sp 0 = specFRAC regs RFout REFin sp := by
    unfold reducedFRAC; simp
  refine ⟨by rw [hIv]; exact hI, ?_, ?_⟩
  · rw [hMv]
    unfold finalMOD
    rw [eM, ← hMr]
    by_cases h1 : specMOD regs REFin sp = 1
    · rw [if_pos h1, if_pos (by exact_mod_cast h1)]; rfl
    · rw [if_neg h1, if_neg (by exact_mod_cast h1)]
  · rw [hFv, eF, hFr, ← hMr, ← hI]
    norm_cast

/-- Witness for C1 (amended): scenario C (410 MHz, 25 MHz reference, R counter 1, 100 kHz
spacing) is in the stated domain and stores `INT = 131`, `FRAC = 50`, `MOD = 250`, which are
`floor(N)`, `round(0.2 * 250)` and `round(PFD / spacing)` for `N = 131.2`; scenario A
(2.5 GHz) stores `INT = 100`, `FRAC = 0`, `MOD = 250`. -/
theorem C1_fields_witness :
    (1 ≤ Reg2.RCountVal.get golden.ADF4351_Reg2 ∧
      Nratio golden 410000000 25000000 = 656 / 5 ∧
      round (PFD golden 25000000 / 100000) = 250) ∧
    (∃ out, ADF4351_UpdateFrequencyRegisters golden 410000000 25000000 100000 0 0 = some out ∧
      out.err = .ADF4351_Err_None ∧
      Reg0.IntVal.get out.regs.ADF4351_Reg0 = 131 ∧
      Reg0.FracVal.get out.regs.ADF4351_Reg0 = 50 ∧
      Reg1.ModVal.get out.regs.ADF4351_Reg1 = 250 ∧
      (Reg0.IntVal.get out.regs.ADF4351_Reg0 : ℤ) = ⌊Nratio golden 410000000 25000000⌋ ∧
      (Reg1.ModVal.get out.regs.ADF4351_Reg1 : ℤ) = round (PFD golden 25000000 / 100000) ∧
      (Reg0.FracVal.get out.regs.ADF4351_Reg0 : ℤ)
        = round ((Nratio golden 410000000 25000000
              - (⌊Nratio golden 410000000 25000000⌋ : ℚ))
            * (round (PFD golden 25000000 / 100000) : ℚ))) ∧
    (∃ out, ADF4351_UpdateFrequencyRegisters golden 2500000000 25000000 100000 0 0 = some out ∧
      out.err = .ADF4351_Err_None ∧
      Reg0.IntVal.get out.regs.ADF4351_Reg0 = 100 ∧
      Reg0.FracVal.get out.regs.ADF4351_Reg0 = 0 ∧
      Reg1.ModVal.get out.regs.ADF4351_Reg1 = 250) := by
  have hs : ADF4351_UpdateFrequencyRegisters golden 410000000 25000000 100000 0 0
      = some { regs := { golden with
                 ADF4351_Reg0 := 4293008, ADF4351_Reg1 := 134252497, ADF4351_Reg4 := 12353596 },
               err := .ADF4351_Err_None, RFoutCalc := .finite 410000000 } := by decide!
  have hA : ADF4351_UpdateFrequencyRegisters golden 2500000000 25000000 100000 0 0
      = some { regs := { golden with
                 ADF4351_Reg0 := 3276800, ADF4351_Reg1 := 134252497, ADF4351_Reg4 := 9207868 },
               err := .ADF4351_Err_None, RFoutCalc := .finite 2500000000 } := by decide!
  have hr : round (PFD golden 25000000 / 100000) = 250 := by decide!
  obtain ⟨out, hout, hc⟩ := C1_fields golden 410000000 25000000 100000 0 (by decide)
    (by decide!) (by decide!) (by decide!) (by decide!) (by rw [hr]; decide)
  rw [hs] at hout
  obtain rfl := Option.some.inj hout
  have hc := hc rfl
  rw [hr] at hc
  refine ⟨⟨by decide, by decide!, hr⟩,
    ⟨_, hs, rfl, by decide, by decide, by decide, hc.1, ?_, ?_⟩,
    ⟨_, hA, rfl, by decide, by decide, by decide⟩⟩
  · rw [hr]; exact hc.2.1
  · rw [hr]; exact hc.2.2

/-- C2: the exponent stored in `Reg4.RfDivSel` is at most 6 and is the base-2 logarithm of
the divider given by the step function with inclusive lower band edges (2.2 GHz, 1.1 GHz,
550 MHz, 275 MHz, 137.5 MHz, 68.75 MHz, otherwise 64); every call that returns has stored
it; and the divider never increases with the target frequency. -/
theorem C2_divider_selection (RFout : ℚ) :
    (ADF4351_Select_Output_Divider RFout).val ≤ 6 ∧
    2 ^ (ADF4351_Select_Output_Divider RFout).val = stepDivider RFout ∧
    (∀ (regs : RegisterBank) (REFin sp : ℚ) (gcd a : Int) (out : Outcome),
      ADF4351_UpdateFrequencyRegisters regs RFout REFin sp gcd a = some out →
      Reg4.RfDivSel.get out.regs.ADF4351_Reg4 = (ADF4351_Select_Output_Divider RFout).val) ∧
    (∀ f2 : ℚ, RFout < f2 → stepDivider f2 ≤ stepDivider RFout) := by
  refine ⟨select_val_le RFout, (stepDivider_eq_pow RFout).symm, ?_, ?_⟩
  · intro regs REFin sp gcd a out h
    have hv := select_val_le RFout
    have h4 := (reg4_forced regs.ADF4351_Reg4 (ADF4351_Select_Output_Divider RFout).val).2.2.1
    rcases update_shape h with hout | ⟨_, _, _, _, hout⟩ <;>
      (rw [hout]; simp only []; rw [h4]; omega)
  · intro f2 hlt
    unfold stepDivider
    split_ifs <;> first | decide | (exfalso; linarith)

/-- Witness for C2: a target of exactly 550 MHz selects divider 4, stored as exponent 2. -/
theorem C2_divider_selection_witness :
    stepDivider 550000000 = 4 ∧
    ∃ out, ADF4351_UpdateFrequencyRegisters golden 550000000 25000000 100000 0 0 = some out ∧
      Reg4.RfDivSel.get out.regs.ADF4351_Reg4 = 2 := by
  have hs : (ADF4351_UpdateFrequencyRegisters golden 550000000 25000000 100000 0 0).isSome
      = true := by decide!
  obtain ⟨out, hout⟩ := Option.isSome_iff_exists.mp hs
  have hv : (ADF4351_Select_Output_Divider 550000000).val = 2 := by decide!
  refine ⟨by decide!, out, hout, ?_⟩
  rw [(C2_divider_selection 550000000).2.2.1 golden 25000000 100000 0 0 out hout, hv]

/-- C3: on a bus at rest (clock low, LE high), `ADF4351_UpdateAllRegisters` produces
exactly six frames of four bytes each, 24 bytes in all, carrying the words of registers
5, 4, 3, 2, 1, 0 in that order, each most significant byte and bit first; every one of the
192 rising clock edges falls inside a frame; LE falls six times and rises six times, once
before and once after the 32 bits of each frame.  The bus is at rest again afterwards, and
`soft_spi_init` puts it at rest in the first place. -/
theorem C3_frames (regs : RegisterBank) (p d : Nat)
    (hclk : lineCLK p = false) (hle : lineLE p = true) :
    (observedUpdate regs p d).frames.map bytesOf
      = [wordBytes regs.ADF4351_Reg5, wordBytes regs.ADF4351_Reg4, wordBytes regs.ADF4351_Reg3,
         wordBytes regs.ADF4351_Reg2, wordBytes regs.ADF4351_Reg1, wordBytes regs.ADF4351_Reg0] ∧
    (((observedUpdate regs p d).frames.map bytesOf).map List.length).sum = 24 ∧
    (observedUpdate regs p d).frames
      = [bitsMSB 32 regs.ADF4351_Reg5, bitsMSB 32 regs.ADF4351_Reg4,
         bitsMSB 32 regs.ADF4351_Reg3, bitsMSB 32 regs.ADF4351_Reg2,
         bitsMSB 32 regs.ADF4351_Reg1, bitsMSB 32 regs.ADF4351_Reg0] ∧
    (observedUpdate regs p d).edges = 192 ∧
    (observedUpdate regs p d).stray = 0 ∧
    (observedUpdate regs p d).shift = [] ∧
    (observedUpdate regs p d).leFalls = 6 ∧
    (observedUpdate regs p d).leRises = 6 ∧
    (lineCLK (ADF4351_UpdateAllRegisters regs (Bus.fresh p d)).PORTB = false ∧
      lineLE (ADF4351_UpdateAllRegisters regs (Bus.fresh p d)).PORTB = true) ∧
    (∀ s : Bus, lineCLK (soft_spi_init s).PORTB = false ∧
      lineLE (soft_spi_init s).PORTB = true) := by
  have hU : ADF4351_UpdateAllRegisters regs (Bus.fresh p d)
      = ADF4351_WriteRegister32 regs.ADF4351_Reg0 (ADF4351_WriteRegister32 regs.ADF4351_Reg1
          (ADF4351_WriteRegister32 regs.ADF4351_Reg2 (ADF4351_WriteRegister32 regs.ADF4351_Reg3
            (ADF4351_WriteRegister32 regs.ADF4351_Reg4
              (ADF4351_WriteRegister32 regs.ADF4351_Reg5 (Bus.fresh p d)))))) := rfl
  obtain ⟨p5, c5, l5, _, _, _, f5⟩ :=
    writeRegister_observed (Monitor.init p) regs.ADF4351_Reg5 (Bus.fresh p d) rfl hclk
  obtain ⟨p4, c4, l4, _, _, _, f4⟩ :=
    writeRegister_observed (Monitor.init p) regs.ADF4351_Reg4 _ p5 c5
  obtain ⟨p3, c3, l3, _, _, _, f3⟩ :=
    writeRegister_observed (Monitor.init p) regs.ADF4351_Reg3 _ p4 c4
  obtain ⟨p2, c2, l2, _, _, _, f2⟩ :=
    writeRegister_observed (Monitor.init p) regs.ADF4351_Reg2 _ p3 c3
  obtain ⟨p1, c1, l1, _, _, _, f1⟩ :=
    writeRegister_observed (Monitor.init p) regs.ADF4351_Reg1 _ p2 c2
  obtain ⟨_, c0, l0, _, _, _, f0⟩ :=
    writeRegister_observed (Monitor.init p) regs.ADF4351_Reg0 _ p1 c1
  obtain ⟨_, _, e5, _, _, sh5, fr5, st5, lf5, lr5⟩ := f5 hle
  obtain ⟨_, _, e4, _, _, sh4, fr4, st4, lf4, lr4⟩ := f4 l5
  obtain ⟨_, _, e3, _, _, sh3, fr3, st3, lf3, lr3⟩ := f3 l4
  obtain ⟨_, _, e2, _, _, sh2, fr2, st2, lf2, lr2⟩ := f2 l3
  obtain ⟨_, _, e1, _, _, sh1, fr1, st1, lf1, lr1⟩ := f1 l2
  obtain ⟨_, _, e0, _, _, sh0, fr0, st0, lf0, lr0⟩ := f0 l1
  have hlen : ∀ w : Nat, (bitsMSB 32 w).length = 32 := fun w => by simp [bitsMSB]
  simp only [hlen] at e5 e4 e3 e2 e1 e0
  have hfr : (observedUpdate regs p d).frames
      = [bitsMSB 32 regs.ADF4351_Reg5, bitsMSB 32 regs.ADF4351_Reg4,
         bitsMSB 32 regs.ADF4351_Reg3, bitsMSB 32 regs.ADF4351_Reg2,
         bitsMSB 32 regs.ADF4351_Reg1, bitsMSB 32 regs.ADF4351_Reg0] := by
    unfold observedUpdate
    rw [hU, fr0, fr1, fr2, fr3, fr4, fr5]
    rfl
  refine ⟨?_, ?_, hfr, ?_, ?_, ?_, ?_, ?_, ⟨by rw [hU]; exact c0, by rw [hU]; exact l0⟩,
    soft_spi_init_at_rest⟩
  · rw [hfr]
    simp only [List.map_cons, List.map_nil, bytesOf_word]
  · rw [hfr]
    simp only [List.map_cons, List.map_nil, bytesOf_word, wordBytes]
    rfl
  · unfold observedUpdate
    rw [hU, e0, e1, e2, e3, e4, e5]
    rfl
  · unfold observedUpdate
    rw [hU, st0, st1, st2, st3, st4, st5]
    rfl
  · unfold observedUpdate
    rw [hU, sh0]
  · unfold observedUpdate
    rw [hU, lf0, lf1, lf2, lf3, lf4, lf5]
    rfl
  · unfold observedUpdate
    rw [hU, lr0, lr1, lr2, lr3, lr4, lr5]
    rfl

/-- Witness for C3: the golden bank sent on a port that holds `0xF1` (LE high, clock low);
the fourth frame carries `R2_TEST = 0x00004E42`. -/
theorem C3_frames_witness :
    lineCLK 0xF1 = false ∧ lineLE 0xF1 = true ∧
    (observedUpdate golden 0xF1 0).frames.map bytesOf
      = [[0x00, 0x58, 0x00, 0x05], [0x00, 0xBC, 0x80, 0x3C], [0x00, 0x00, 0x04, 0xB3],
         [0x00, 0x00, 0x4E, 0x42], [0x08, 0x00, 0x80, 0x29], [0x00, 0x41, 0x80, 0x08]] ∧
    (observedUpdate golden 0xF1 0).edges = 192 := by
  have h := C3_frames golden 0xF1 0 (by decide) (by decide)
  refine ⟨by decide, by decide, ?_, h.2.2.2.1⟩
  rw [h.1]
  decide

/-- C4: a call of `ADF4351_WriteRegister32` on a bus whose clock line is low produces
exactly 32 rising clock edges; at the k-th of them (k = 0..31) the data line carries bit
`31 - k` of the word; the data line never changes with the clock high; and the clock line
is low when a call of `soft_spi_transfer` returns, given it was low on entry. -/
theorem C4_waveform (w p d : Nat) (hclk : lineCLK p = false) :
    (observedWrite w p d).edges = 32 ∧
    (observedWrite w p d).sampled = bitsMSB 32 w ∧
    (∀ k : Nat, k < 32 → (observedWrite w p d).sampled.get? k = some (w.testBit (31 - k))) ∧
    (observedWrite w p d).dataSafe = true ∧
    (∀ (b : Nat) (s : Bus), lineCLK s.PORTB = false →
      lineCLK (soft_spi_transfer b s).PORTB = false) := by
  obtain ⟨_, _, _, he, hs, hd, _⟩ :=
    writeRegister_observed (Monitor.init p) w (Bus.fresh p d) rfl hclk
  have hs' : (observedWrite w p d).sampled = bitsMSB 32 w := by
    unfold observedWrite; rw [hs]; rfl
  refine ⟨by unfold observedWrite; rw [he]; rfl, hs', ?_, by unfold observedWrite; rw [hd]; rfl,
    fun b s h => transfer_loop_clk_low 8 _ s h⟩
  intro k hk
  rw [hs']
  simp [bitsMSB, List.getElem?_map, List.getElem?_range, hk]

/-- Witness for C4: the golden word of register 0 sent on a port that holds `0xF1`
(clock low). -/
theorem C4_waveform_witness :
    lineCLK 0xF1 = false ∧
    (observedWrite R0_TEST 0xF1 0).edges = 32 ∧
    (observedWrite R0_TEST 0xF1 0).sampled.get? 9 = some (R0_TEST.testBit 22) ∧
    R0_TEST.testBit 22 = true := by
  have h := C4_waveform R0_TEST 0xF1 0 (by decide)
  exact ⟨by decide, h.1, h.2.2.1 9 (by decide), by decide⟩

/-- C5 (counterexample): from the golden bank, a 2.5 GHz target with 5 kHz channel spacing
gives `MOD = 5000`; the call returns `ADF4351_Err_InvalidMOD` and register 4 has changed
(its `RfDivSel` field went from 3 to 0). -/
theorem C5_counterexample :
    ∃ out, ADF4351_UpdateFrequencyRegisters golden 2500000000 25000000 5000 0 0 = some out ∧
      out.err = .ADF4351_Err_InvalidMOD ∧
      golden.ADF4351_Reg4 = 0x00BC803C ∧ out.regs.ADF4351_Reg4 = 0x008C803C ∧
      out.regs.ADF4351_Reg4 ≠ golden.ADF4351_Reg4 := by
  refine ⟨{ regs := { golden with ADF4351_Reg4 := 0x008C803C },
            err := .ADF4351_Err_InvalidMOD, RFoutCalc := .unwritten }, ?_, rfl, ?_, rfl, ?_⟩
  · decide!
  · decide
  · decide

/-- C5 (amended): when the call returns `ADF4351_Err_InvalidMOD`, registers 0, 2, 3 and 5
are unchanged, and so is every bit of registers 1 and 4 outside the fields stored before
the safety check: `Reg1.PhaseVal` and `Reg1.Prescaler` read 1, `Reg4.Feedback` reads 1 and
`Reg4.RfDivSel` holds the exponent selected for `RFout`; `*RFoutCalc` is not written. -/
theorem C5_invalidMOD_commit (regs : RegisterBank) (RFout REFin sp : ℚ) (gcd a : Int)
    (out : Outcome)
    (h : ADF4351_UpdateFrequencyRegisters regs RFout REFin sp gcd a = some out)
    (herr : out.err = .ADF4351_Err_InvalidMOD) :
    out.regs.ADF4351_Reg0 = regs.ADF4351_Reg0 ∧
    out.regs.ADF4351_Reg2 = regs.ADF4351_Reg2 ∧
    out.regs.ADF4351_Reg3 = regs.ADF4351_Reg3 ∧
    out.regs.ADF4351_Reg5 = regs.ADF4351_Reg5 ∧
    (out.regs.ADF4351_Reg1 % 2 ^ 15 = regs.ADF4351_Reg1 % 2 ^ 15 ∧
      out.regs.ADF4351_Reg1 / 2 ^ 28 = regs.ADF4351_Reg1 / 2 ^ 28 ∧
      Reg1.PhaseVal.get out.regs.ADF4351_Reg1 = 1 ∧
      Reg1.Prescaler.get out.regs.ADF4351_Reg1 = 1) ∧
    (out.regs.ADF4351_Reg4 % 2 ^ 20 = regs.ADF4351_Reg4 % 2 ^ 20 ∧
      out.regs.ADF4351_Reg4 / 2 ^ 24 = regs.ADF4351_Reg4 / 2 ^ 24 ∧
      Reg4.RfDivSel.get out.regs.ADF4351_Reg4 = (ADF4351_Select_Output_Divider RFout).val ∧
      Reg4.Feedback.get out.regs.ADF4351_Reg4 = 1) ∧
    out.RFoutCalc = .unwritten := by
  have hv := select_val_le RFout
  have h1 := reg1_forced regs.ADF4351_Reg1
  have h4 := reg4_forced regs.ADF4351_Reg4 (ADF4351_Select_Output_Divider RFout).val
  rw [Nat.mod_eq_of_lt (by omega : (ADF4351_Select_Output_Divider RFout).val < 8)] at h4
  rcases update_shape h with hout | ⟨_, _, _, _, hout⟩
  · subst hout
    exact ⟨rfl, rfl, rfl, rfl, h1, h4, rfl⟩
  · subst hout
    simp at herr

/-- Witness for C5 (amended): the call of the counterexample. -/
theorem C5_invalidMOD_commit_witness :
    ∃ out, ADF4351_UpdateFrequencyRegisters golden 2500000000 25000000 5000 0 0 = some out ∧
      out.err = .ADF4351_Err_InvalidMOD ∧
      out.regs.ADF4351_Reg0 = golden.ADF4351_Reg0 ∧
      out.regs.ADF4351_Reg1 % 2 ^ 15 = golden.ADF4351_Reg1 % 2 ^ 15 ∧
      Reg4.RfDivSel.get out.regs.ADF4351_Reg4
        = (ADF4351_Select_Output_Divider 2500000000).val := by
  have hs : ADF4351_UpdateFrequencyRegisters golden 2500000000 25000000 5000 0 0
      = some { regs := { golden with ADF4351_Reg4 := 0x008C803C },
               err := .ADF4351_Err_InvalidMOD, RFoutCalc := .unwritten } := by decide!
  have hc := C5_invalidMOD_commit golden 2500000000 25000000 5000 0 0 _ hs rfl
  exact ⟨_, hs, rfl, hc.1, hc.2.2.2.2.1.1, hc.2.2.2.2.2.1.2.2.1⟩

/-- C7 (counterexample): from the golden bank, the successful call of scenario A (2.5 GHz,
25 MHz reference, 100 kHz spacing) leaves `Reg1.PhaseAdjust` at 0. -/
theorem C7_counterexample :
    ∃ out, ADF4351_UpdateFrequencyRegisters golden 2500000000 25000000 100000 0 0 = some out ∧
      out.err = .ADF4351_Err_None ∧
      Reg1.PhaseAdjust.get out.regs.ADF4351_Reg1 = 0 := by
  refine ⟨{ regs := { golden with
              ADF4351_Reg0 := 3276800, ADF4351_Reg1 := 134252497, ADF4351_Reg4 := 9207868 },
            err := .ADF4351_Err_None, RFoutCalc := .finite 2500000000 }, ?_, rfl, ?_⟩
  · decide!
  · decide

/-- C7 (amended): after every call that returns `ADF4351_Err_None`, `Reg1.Prescaler` reads 1,
the 12-bit field `Reg1.PhaseVal` reads 1 and `Reg4.Feedback` reads 1, whatever they held
before; `Reg1.PhaseAdjust` keeps the value it had before the call. -/
theorem C7_forced_bits (regs : RegisterBank) (RFout REFin sp : ℚ) (gcd a : Int)
    (out : Outcome)
    (h : ADF4351_UpdateFrequencyRegisters regs RFout REFin sp gcd a = some out)
    (herr : out.err = .ADF4351_Err_None) :
    Reg1.Prescaler.get out.regs.ADF4351_Reg1 = 1 ∧
    Reg1.PhaseVal.get out.regs.ADF4351_Reg1 = 1 ∧
    Reg4.Feedback.get out.regs.ADF4351_Reg4 = 1 ∧
    Reg1.PhaseAdjust.get out.regs.ADF4351_Reg1 = Reg1.PhaseAdjust.get regs.ADF4351_Reg1 := by
  have h4 := (reg4_forced regs.ADF4351_Reg4 (ADF4351_Select_Output_Divider RFout).val).2.2.2
  rcases update_shape h with hout | ⟨_, MOD, _, _, hout⟩
  · subst hout
    simp at herr
  · have h1 := reg1_success regs.ADF4351_Reg1 MOD
    subst hout
    exact ⟨h1.1, h1.2.1, h4, h1.2.2⟩

/-- Witness for C7 (amended): from a bank whose registers 1 and 4 hold nothing but their
address tags, scenario A succeeds and the three fields read 1. -/
theorem C7_forced_bits_witness :
    ∃ out, ADF4351_UpdateFrequencyRegisters
        { golden with ADF4351_Reg1 := 1, ADF4351_Reg4 := 4 } 2500000000 25000000 100000 0 0
        = some out ∧
      out.err = .ADF4351_Err_None ∧
      Reg1.Prescaler.get out.regs.ADF4351_Reg1 = 1 ∧
      Reg1.PhaseVal.get out.regs.ADF4351_Reg1 = 1 ∧
      Reg4.Feedback.get out.regs.ADF4351_Reg4 = 1 := by
  have hs : ADF4351_UpdateFrequencyRegisters
      { golden with ADF4351_Reg1 := 1, ADF4351_Reg4 := 4 } 2500000000 25000000 100000 0 0
      = some { regs := { golden with
                 ADF4351_Reg0 := 3276800, ADF4351_Reg1 := 134252497, ADF4351_Reg4 := 8388612 },
               err := .ADF4351_Err_None, RFoutCalc := .finite 2500000000 } := by decide!
  have hc := C7_forced_bits _ 2500000000 25000000 100000 0 0 _ hs rfl
  exact ⟨_, hs, rfl, hc.1, hc.2.1, hc.2.2.1⟩

/-- C8 (failing input): from the golden bank, a 2.5 GHz target with a 25 MHz reference and
100 MHz channel spacing rounds `PFD / spacing = 0.25` to `MOD = 0`; neither guard fires, the
call returns `ADF4351_Err_None` and stores `ModVal = 0` (the quotient `FRAC / MOD` written
to `*RFoutCalc` is not a number). -/
theorem C8_modval_zero :
    ∃ out, ADF4351_UpdateFrequencyRegisters golden 2500000000 25000000 100000000 0 0 = some out ∧
      out.err = .ADF4351_Err_None ∧
      Reg1.ModVal.get out.regs.ADF4351_Reg1 = 0 ∧
      Reg0.IntVal.get out.regs.ADF4351_Reg0 = 100 ∧
      Reg0.FracVal.get out.regs.ADF4351_Reg0 = 0 ∧
      out.RFoutCalc = .nonfinite := by
  refine ⟨{ regs := { golden with
              ADF4351_Reg0 := 3276800, ADF4351_Reg1 := 134250497, ADF4351_Reg4 := 9207868 },
            err := .ADF4351_Err_None, RFoutCalc := .nonfinite }, ?_, rfl, ?_, ?_, ?_, rfl⟩
  · decide!
  · decide
  · decide
  · decide

/-- C9 (failing input): from the golden bank with the gcd flag set, a target of
2524999875 Hz with a 25 MHz reference and 500 Hz channel spacing gives `MOD = 50000` and
`FRAC = 50000`.  `gcd_iter` finds 50000, which its return type `int` (16 bits on the target)
cannot hold: it returns -15536, stored in the `uint32_t D` as 4294951760, and both divisions
give 0.  The call returns `ADF4351_Err_None` with `FracVal = 0` and `ModVal = 0`, whose gcd
is 0 and not 1.  The helper alone gives `gcd_iter(40000, 0) = -25536` there, and with a
32-bit `int` `gcd_iter(2147483648, 0) = -2147483648`, neither being its first argument; with
a 32-bit `int` the same call stores the coprime pair `FracVal = 1`, `ModVal = 2`. -/
theorem C9_gcd_int_overflow :
    (specMOD golden 25000000 500 = 50000 ∧
      specFRAC golden 2524999875 25000000 500 = 50000 ∧
      gcd_iter INT_BITS 50000 50000 = -15536 ∧
      toU32 (gcd_iter INT_BITS 50000 50000) = 4294951760 ∧
      ∃ out, ADF4351_UpdateFrequencyRegisters golden 2524999875 25000000 500 1 0 = some out ∧
        out.err = .ADF4351_Err_None ∧
        Reg0.FracVal.get out.regs.ADF4351_Reg0 = 0 ∧
        Reg1.ModVal.get out.regs.ADF4351_Reg1 = 0 ∧
        Nat.gcd (Reg0.FracVal.get out.regs.ADF4351_Reg0)
          (Reg1.ModVal.get out.regs.ADF4351_Reg1) ≠ 1) ∧
    (gcd_iter INT_BITS 40000 0 = -25536 ∧ gcd_iter 32 2147483648 0 = -2147483648) ∧
    (gcd_iter 32 50000 50000 = 50000 ∧
      ∃ out, ADF4351_UpdateFrequencyRegisters_int 32 golden 2524999875 25000000 500 1 0
          = some out ∧
        out.err = .ADF4351_Err_None ∧
        Reg0.FracVal.get out.regs.ADF4351_Reg0 = 1 ∧
        Reg1.ModVal.get out.regs.ADF4351_Reg1 = 2) := by
  refine ⟨⟨?_, ?_, ?_, ?_,
      { regs := { golden with
          ADF4351_Reg0 := 3276800, ADF4351_Reg1 := 134250497, ADF4351_Reg4 := 9207868 },
        err := .ADF4351_Err_None, RFoutCalc := .nonfinite }, ?_, rfl, ?_, ?_, ?_⟩,
    ⟨?_, ?_⟩,
    ⟨?_,
      { regs := { golden with
          ADF4351_Reg0 := 3276808, ADF4351_Reg1 := 134250513, ADF4351_Reg4 := 9207868 },
        err := .ADF4351_Err_None, RFoutCalc := .finite 2512500000 }, ?_, rfl, ?_, ?_⟩⟩
  · decide!
  · decide!
  · decide!
  · decide!
  · decide!
  · decide
  · decide
  · decide
  · decide!
  · decide!
  · decide!
  · decide!
  · decide
  · decide

/-- C10 (counterexample): with a negative reference (`REFin = -64`, spacing `-16`,
`RFout = -5/4`) the call succeeds with `INT = 1`, `FRAC = 1`, `MOD = 4`, divider 64 and an
achieved frequency equal to the target, while `PFD / ModVal / divider = -1/4` is negative:
the bound fails. -/
theorem C10_counterexample :
    ∃ out, ADF4351_UpdateFrequencyRegisters golden (-5 / 4) (-64) (-16) 0 0 = some out ∧
      out.err = .ADF4351_Err_None ∧ out.RFoutCalc = .finite (-5 / 4) ∧
      PFD golden (-64) = -64 ∧
      Reg1.ModVal.get out.regs.ADF4351_Reg1 = 4 ∧
      Reg4.RfDivSel.get out.regs.ADF4351_Reg4 = 6 ∧
      ¬ (|(-5 / 4 : ℚ) - (-5 / 4)| ≤ PFD golden (-64)
          / (Reg1.ModVal.get out.regs.ADF4351_Reg1 : ℚ)
          / (2 ^ Reg4.RfDivSel.get out.regs.ADF4351_Reg4 : ℚ)) := by
  refine ⟨{ regs := { golden with
              ADF4351_Reg0 := 32776, ADF4351_Reg1 := 134250529, ADF4351_Reg4 := 15499324 },
            err := .ADF4351_Err_None, RFoutCalc := .finite (-5 / 4) }, ?_, rfl, rfl, ?_, ?_, ?_, ?_⟩
  · decide!
  · decide!
  · decide
  · decide
  · decide!

/-- C10 (amended): for every call with `RCountVal >= 1`, positive `REFin` and
`OutputChannelSpacing`, a target `RFout >= 0`, `N < 65536`,
`round(PFD / OutputChannelSpacing) < 65536` and, when the gcd flag is set,
`round(PFD / OutputChannelSpacing) >= 1`: the call returns, and when it returns
`ADF4351_Err_None` with a stored `ModVal` other than 0 (with or without gcd reduction, also
when `MOD` is promoted from 1 to 2), the value written to `*RFoutCalc` is
`(IntVal + FracVal / ModVal) * PFD / divider` and is within `PFD / ModVal / divider` of
`RFout`, where `divider = 2 ^ RfDivSel` and the fields are the stored ones. -/
theorem C10_resolution (regs : RegisterBank) (RFout REFin sp : ℚ) (gcd a : Int)
    (hR : 1 ≤ Reg2.RCountVal.get regs.ADF4351_Reg2) (hREF : 0 < REFin) (hsp : 0 < sp)
    (hRF : 0 ≤ RFout) (hN : Nratio regs RFout REFin < 65536)
    (hM : round (PFD regs REFin / sp) < 65536)
    (hg : gcd ≠ 0 → 1 ≤ round (PFD regs REFin / sp)) :
    ∃ out, ADF4351_UpdateFrequencyRegisters regs RFout REFin sp gcd a = some out ∧
      (out.err = .ADF4351_Err_None → Reg1.ModVal.get out.regs.ADF4351_Reg1 ≠ 0 →
        ∃ v : ℚ, out.RFoutCalc = .finite v ∧
          v = ((Reg0.IntVal.get out.regs.ADF4351_Reg0 : ℚ)
                + (Reg0.FracVal.get out.regs.ADF4351_Reg0 : ℚ)
                  / (Reg1.ModVal.get out.regs.ADF4351_Reg1 : ℚ))
              * PFD regs REFin / (2 ^ Reg4.RfDivSel.get out.regs.ADF4351_Reg4 : ℚ) ∧
          |v - RFout| ≤ PFD regs REFin / (Reg1.ModVal.get out.regs.ADF4351_Reg1 : ℚ)
              / (2 ^ Reg4.RfDivSel.get out.regs.ADF4351_Reg4 : ℚ)) := by
  obtain ⟨out, h⟩ : ∃ out,
      ADF4351_UpdateFrequencyRegisters regs RFout REFin sp gcd a = some out :=
    update_returns hR hREF hsp hRF hN hM hg
  have hRq : (0 : ℚ) < (Reg2.RCountVal.get regs.ADF4351_Reg2 : ℚ) := by exact_mod_cast hR
  have hP : 0 < PFD regs REFin := by unfold PFD; positivity
  exact ⟨out, h, fun herr hMv =>
    resolution_bound h (fits_of_ModVal_ne_zero h herr hMv) herr hP hMv⟩

/-- Witness for C10 (amended): scenario C with the gcd flag set (`PFD` = 25 MHz, `N` = 131.2,
`round(PFD / spacing)` = 250) returns `ADF4351_Err_None` with `ModVal = 5`, and the value
written is within `PFD / 5 / 8` of the 410 MHz target. -/
theorem C10_resolution_witness :
    (1 ≤ Reg2.RCountVal.get golden.ADF4351_Reg2 ∧
      Nratio golden 410000000 25000000 = 656 / 5 ∧
      round (PFD golden 25000000 / 100000) = 250) ∧
    ∃ out, ADF4351_UpdateFrequencyRegisters golden 410000000 25000000 100000 1 0 = some out ∧
      out.err = .ADF4351_Err_None ∧ Reg1.ModVal.get out.regs.ADF4351_Reg1 = 5 ∧
      Reg4.RfDivSel.get out.regs.ADF4351_Reg4 = 3 ∧
      ∃ v : ℚ, out.RFoutCalc = .finite v ∧
        |v - 410000000| ≤ PFD golden 25000000 / (Reg1.ModVal.get out.regs.ADF4351_Reg1 : ℚ)
          / (2 ^ Reg4.RfDivSel.get out.regs.ADF4351_Reg4 : ℚ) := by
  have hs : ADF4351_UpdateFrequencyRegisters golden 410000000 25000000 100000 1 0
      = some { regs := { golden with
                 ADF4351_Reg0 := 4292616, ADF4351_Reg1 := 134250537, ADF4351_Reg4 := 12353596 },
               err := .ADF4351_Err_None, RFoutCalc := .finite 410000000 } := by decide!
  have hr : round (PFD golden 25000000 / 100000) = 250 := by decide!
  obtain ⟨out, hout, hc⟩ := C10_resolution golden 410000000 25000000 100000 1 0
    (by decide) (by decide!) (by decide!) (by decide!) (by decide!) (by rw [hr]; decide)
    (fun _ => by rw [hr]; decide)
  rw [hs] at hout
  obtain rfl := Option.some.inj hout
  obtain ⟨v, hv, _, hb⟩ := hc rfl (by decide)
  exact ⟨⟨by decide, by decide!, hr⟩, _, hs, rfl, by decide, by decide, v, hv, hb⟩

/-- C11 (counterexample): in register 3, `CsrEn = 1` with every other field zero and tag 3
gives the word `3 + 2^18`, not the word `3 + 2^17` of the contiguous packing of the spec's
table; in register 5, `LdPinMode = 1` with tag 5 gives `5 + 2^22`, not `5 + 2^3`.  The golden
word `R5_TEST` holds `LdPinMode = 1` in bits 22 to 23 and zero in bits 3 to 4. -/
theorem C11_counterexample :
    (Reg3.word 3 0 0 0 1 0 0 0 0 0 = (3 + 2 ^ 18 : Nat) ∧
      specWord 3 [(12, 0), (2, 0), (1, 1), (1, 0), (1, 0), (1, 0)] = (3 + 2 ^ 17 : Nat) ∧
      Reg3.word 3 0 0 0 1 0 0 0 0 0
        ≠ specWord 3 [(12, 0), (2, 0), (1, 1), (1, 0), (1, 0), (1, 0)]) ∧
    (Reg5.word 5 0 0 0 1 0 = (5 + 2 ^ 22 : Nat) ∧ specWord 5 [(2, 1)] = (5 + 2 ^ 3 : Nat) ∧
      Reg5.word 5 0 0 0 1 0 ≠ specWord 5 [(2, 1)]) ∧
    (Reg5.LdPinMode.get R5_TEST = 1 ∧ R5_TEST / (2 ^ 3 : Nat) % (2 ^ 2 : Nat) = 0) := by
  decide

/-- C11 (amended): the word of every register is the contiguous packing, from bit 0 upward,
of all the bit-fields the header declares for it, reserved ones included, in declaration
order and widths, the 3-bit tag first.  For registers 0, 1, 2 and 4 with the reserved top
bits zero this is the tag and the named fields of the spec's table packed contiguously
(`Reg0.w = tag + FracVal*2^3 + IntVal*2^15`).  In register 3 `ClkDivVal` is bits 3 to 14,
`ClkDivMod` bits 15 to 16, bit 17 is reserved, `CsrEn` is bit 18, bits 19 to 20 are
reserved, `ChargeCh` is bit 21, `AntibacklashW` bit 22 and `BandSelMode` bit 23; in
register 5 bits 3 to 21 are reserved and `LdPinMode` is bits 22 to 23.  Every field of
registers 3 and 5 named here reads back the value assigned to it. -/
theorem C11_wire_format :
    ((∀ t FracVal IntVal r0 : Nat,
        Reg0.word t FracVal IntVal r0 = specWord t [(12, FracVal), (16, IntVal), (1, r0)]) ∧
      (∀ t ModVal PhaseVal Prescaler PhaseAdjust r0 : Nat,
        Reg1.word t ModVal PhaseVal Prescaler PhaseAdjust r0
          = specWord t [(12, ModVal), (12, PhaseVal), (1, Prescaler), (1, PhaseAdjust),
              (3, r0)]) ∧
      (∀ t CounterReset CPTristate PowerDown PhasePolarity LDP LDF CPCurrent DoubleBuffer
          RCountVal RDiv2 RMul2 MuxOut LowNoiseSpur r0 : Nat,
        Reg2.word t CounterReset CPTristate PowerDown PhasePolarity LDP LDF CPCurrent
            DoubleBuffer RCountVal RDiv2 RMul2 MuxOut LowNoiseSpur r0
          = specWord t [(1, CounterReset), (1, CPTristate), (1, PowerDown),
              (1, PhasePolarity), (1, LDP), (1, LDF), (4, CPCurrent), (1, DoubleBuffer),
              (10, RCountVal), (1, RDiv2), (1, RMul2), (3, MuxOut), (2, LowNoiseSpur),
              (1, r0)]) ∧
      (∀ t ClkDivVal ClkDivMod r0 CsrEn r1 ChargeCh AntibacklashW BandSelMode r2 : Nat,
        Reg3.word t ClkDivVal ClkDivMod r0 CsrEn r1 ChargeCh AntibacklashW BandSelMode r2
          = specWord t [(12, ClkDivVal), (2, ClkDivMod), (1, r0), (1, CsrEn), (2, r1),
              (1, ChargeCh), (1, AntibacklashW), (1, BandSelMode), (8, r2)]) ∧
      (∀ t OutPower OutEnable AuxPower AuxEnable AuxSel Mtld VcoPowerDown BandClkDiv RfDivSel
          Feedback r0 : Nat,
        Reg4.word t OutPower OutEnable AuxPower AuxEnable AuxSel Mtld VcoPowerDown BandClkDiv
            RfDivSel Feedback r0
          = specWord t [(2, OutPower), (1, OutEnable), (2, AuxPower), (1, AuxEnable),
              (1, AuxSel), (1, Mtld), (1, VcoPowerDown), (8, BandClkDiv), (3, RfDivSel),
              (1, Feedback), (8, r0)]) ∧
      (∀ t r0 r1 r2 LdPinMode r3 : Nat,
        Reg5.word t r0 r1 r2 LdPinMode r3
          = specWord t [(16, r0), (2, r1), (1, r2), (2, LdPinMode), (8, r3)])) ∧
    ((∀ t FracVal IntVal : Nat,
        Reg0.word t FracVal IntVal 0 = specWord t [(12, FracVal), (16, IntVal)] ∧
        Reg0.word t FracVal IntVal 0
          = t % 2 ^ 3 + FracVal % 2 ^ 12 * 2 ^ 3 + IntVal % 2 ^ 16 * 2 ^ 15) ∧
      (∀ t ModVal PhaseVal Prescaler PhaseAdjust : Nat,
        Reg1.word t ModVal PhaseVal Prescaler PhaseAdjust 0
          = specWord t [(12, ModVal), (12, PhaseVal), (1, Prescaler), (1, PhaseAdjust)]) ∧
      (∀ t CounterReset CPTristate PowerDown PhasePolarity LDP LDF CPCurrent DoubleBuffer
          RCountVal RDiv2 RMul2 MuxOut LowNoiseSpur : Nat,
        Reg2.word t CounterReset CPTristate PowerDown PhasePolarity LDP LDF CPCurrent
            DoubleBuffer RCountVal RDiv2 RMul2 MuxOut LowNoiseSpur 0
          = specWord t [(1, CounterReset), (1, CPTristate), (1, PowerDown),
              (1, PhasePolarity), (1, LDP), (1, LDF), (4, CPCurrent), (1, DoubleBuffer),
              (10, RCountVal), (1, RDiv2), (1, RMul2), (3, MuxOut), (2, LowNoiseSpur)]) ∧
      (∀ t OutPower OutEnable AuxPower AuxEnable AuxSel Mtld VcoPowerDown BandClkDiv RfDivSel
          Feedback : Nat,
        Reg4.word t OutPower OutEnable AuxPower AuxEnable AuxSel Mtld VcoPowerDown BandClkDiv
            RfDivSel Feedback 0
          = specWord t [(2, OutPower), (1, OutEnable), (2, AuxPower), (1, AuxEnable),
              (1, AuxSel), (1, Mtld), (1, VcoPowerDown), (8, BandClkDiv), (3, RfDivSel),
              (1, Feedback)])) ∧
    (Reg3.ClkDivVal = ⟨3, 12⟩ ∧ Reg3.ClkDivMod = ⟨15, 2⟩ ∧ Reg3._reserved_0 = ⟨17, 1⟩ ∧
      Reg3.CsrEn = ⟨18, 1⟩ ∧ Reg3._reserved_1 = ⟨19, 2⟩ ∧ Reg3.ChargeCh = ⟨21, 1⟩ ∧
      Reg3.AntibacklashW = ⟨22, 1⟩ ∧ Reg3.BandSelMode = ⟨23, 1⟩ ∧
      Reg5._reserved_0 = ⟨3, 16⟩ ∧ Reg5._reserved_1 = ⟨19, 2⟩ ∧ Reg5._reserved_2 = ⟨21, 1⟩ ∧
      Reg5.LdPinMode = ⟨22, 2⟩) ∧
    ((∀ t ClkDivVal ClkDivMod r0 CsrEn r1 ChargeCh AntibacklashW BandSelMode r2 : Nat,
        Reg3.ClkDivVal.get
            (Reg3.word t ClkDivVal ClkDivMod r0 CsrEn r1 ChargeCh AntibacklashW BandSelMode r2)
          = ClkDivVal % 2 ^ 12 ∧
        Reg3.ClkDivMod.get
            (Reg3.word t ClkDivVal ClkDivMod r0 CsrEn r1 ChargeCh AntibacklashW BandSelMode r2)
          = ClkDivMod % 2 ^ 2 ∧
        Reg3.CsrEn.get
            (Reg3.word t ClkDivVal ClkDivMod r0 CsrEn r1 ChargeCh AntibacklashW BandSelMode r2)
          = CsrEn % 2 ^ 1 ∧
        Reg3.ChargeCh.get
            (Reg3.word t ClkDivVal ClkDivMod r0 CsrEn r1 ChargeCh AntibacklashW BandSelMode r2)
          = ChargeCh % 2 ^ 1 ∧
        Reg3.AntibacklashW.get
            (Reg3.word t ClkDivVal ClkDivMod r0 CsrEn r1 ChargeCh AntibacklashW BandSelMode r2)
          = AntibacklashW % 2 ^ 1 ∧
        Reg3.BandSelMode.get
            (Reg3.word t ClkDivVal ClkDivMod r0 CsrEn r1 ChargeCh AntibacklashW BandSelMode r2)
          = BandSelMode % 2 ^ 1) ∧
      (∀ t r0 r1 r2 LdPinMode r3 : Nat,
        Reg5.LdPinMode.get (Reg5.word t r0 r1 r2 LdPinMode r3) = LdPinMode % 2 ^ 2)) := by
  refine ⟨⟨reg0_word_eq, reg1_word_eq, reg2_word_eq, reg3_word_eq, reg4_word_eq,
    reg5_word_eq⟩, ⟨?_, ?_, ?_, ?_⟩, by decide, ⟨?_, ?_⟩⟩
  · intro t FracVal IntVal
    have h := (reg0_word_eq t FracVal IntVal 0).trans
      (specWord_append_zero t [(12, FracVal), (16, IntVal)] 1)
    refine ⟨h, ?_⟩
    rw [h]
    simp only [specWord, packContiguous]
    norm_num
    omega
  · intro t ModVal PhaseVal Prescaler PhaseAdjust
    exact (reg1_word_eq t ModVal PhaseVal Prescaler PhaseAdjust 0).trans
      (specWord_append_zero t
        [(12, ModVal), (12, PhaseVal), (1, Prescaler), (1, PhaseAdjust)] 3)
  · intro t CounterReset CPTristate PowerDown PhasePolarity LDP LDF CPCurrent DoubleBuffer
      RCountVal RDiv2 RMul2 MuxOut LowNoiseSpur
    exact (reg2_word_eq t CounterReset CPTristate PowerDown PhasePolarity LDP LDF CPCurrent
      DoubleBuffer RCountVal RDiv2 RMul2 MuxOut LowNoiseSpur 0).trans
      (specWord_append_zero t [(1, CounterReset), (1, CPTristate), (1, PowerDown),
        (1, PhasePolarity), (1, LDP), (1, LDF), (4, CPCurrent), (1, DoubleBuffer),
        (10, RCountVal), (1, RDiv2), (1, RMul2), (3, MuxOut), (2, LowNoiseSpur)] 1)
  · intro t OutPower OutEnable AuxPower AuxEnable AuxSel Mtld VcoPowerDown BandClkDiv RfDivSel
      Feedback
    exact (reg4_word_eq t OutPower OutEnable AuxPower AuxEnable AuxSel Mtld VcoPowerDown
      BandClkDiv RfDivSel Feedback 0).trans
      (specWord_append_zero t [(2, OutPower), (1, OutEnable), (2, AuxPower), (1, AuxEnable),
        (1, AuxSel), (1, Mtld), (1, VcoPowerDown), (8, BandClkDiv), (3, RfDivSel),
        (1, Feedback)] 8)
  · intro t ClkDivVal ClkDivMod r0 CsrEn r1 ChargeCh AntibacklashW BandSelMode r2
    exact (reg3_readback t ClkDivVal ClkDivMod r0 CsrEn r1 ChargeCh AntibacklashW BandSelMode
      r2).2
  · intro t r0 r1 r2 LdPinMode r3
    exact (reg5_readback t r0 r1 r2 LdPinMode r3).2

/-- C12 (failing input): from the golden bank, a target of 2 524 990 000 Hz with a 25 MHz
reference, 100 kHz channel spacing and no gcd reduction has `N = 100.9996 < 65536`;
`round(0.9996 * 250)` is 250, so the call returns `ADF4351_Err_None` with `IntVal = 100`,
`FracVal = 250` and `ModVal = 250`: the stored fraction is not smaller than the stored
modulus. -/
theorem C12_frac_equals_mod :
    ∃ out, ADF4351_UpdateFrequencyRegisters golden 2524990000 25000000 100000 0 0 = some out ∧
      out.err = .ADF4351_Err_None ∧
      1 ≤ Reg2.RCountVal.get golden.ADF4351_Reg2 ∧
      Nratio golden 2524990000 25000000 = 252499 / 2500 ∧
      Nratio golden 2524990000 25000000 < 65536 ∧
      Reg0.IntVal.get out.regs.ADF4351_Reg0 = 100 ∧
      Reg0.FracVal.get out.regs.ADF4351_Reg0 = 250 ∧
      Reg1.ModVal.get out.regs.ADF4351_Reg1 = 250 ∧
      ¬ (Reg0.FracVal.get out.regs.ADF4351_Reg0 < Reg1.ModVal.get out.regs.ADF4351_Reg1) := by
  refine ⟨{ regs := { golden with
              ADF4351_Reg0 := 3278800, ADF4351_Reg1 := 134252497, ADF4351_Reg4 := 9207868 },
            err := .ADF4351_Err_None, RFoutCalc := .finite 2525000000 },
    ?_, rfl, ?_, ?_, ?_, ?_, ?_, ?_, ?_⟩
  · decide!
  · decide
  · decide!
  · decide!
  · decide
  · decide
  · decide
  · decide

end ADF4351
